import Mathlib

/-!
Verification of the Simple-ECS runtime library (header-only C++20, namespace
`secs`).  The development shallowly embeds the component slot table
(`SystemBase`, System.hpp), the entity lifecycle object (`Entity`, Entity.hpp)
and the registry (`World`, World.hpp) instantiated with one registered system,
and proves the specification's claims about slot allocation/recycling, lookup
totality, the entity lifecycle state machine and the deferred
creation/destruction protocol.
-/

namespace Secs

/-- `secs::Uid` is `std::size_t` (Defines.hpp); modelled as `Nat`, with the
64-bit wraparound made explicit at the spots where the code can overflow or
underflow. -/
abbrev Uid := Nat

/-- The modulus `2^64` of `std::size_t` arithmetic. -/
def sizeTMod : Nat := 18446744073709551616

/-- `++counter` on a `std::size_t` counter (wraps at `2^64`). -/
def incSizeT (n : Nat) : Nat := if n = sizeTMod - 1 then 0 else n + 1

/-- `--counter` on a `std::size_t` counter (wraps below zero). -/
def decSizeT (n : Nat) : Nat := if n = 0 then sizeTMod - 1 else n - 1

/-- `secs::EntityState` (Defines.hpp). -/
inductive EntityState where
  | none
  | initializing
  | running
  | teardown
deriving DecidableEq

/-- `static_cast<int>` of an `EntityState` enumerator (declaration order). -/
def EntityState.toCInt : EntityState → Nat
  | .none => 0
  | .initializing => 1
  | .running => 2
  | .teardown => 3

/-- `SystemBase<TComponent>::ComponentInfo` (System.hpp): the stored payload
plus the back-reference to the owning entity (`Entity*`, modelled as the owning
entity's uid; `Option.none` is `nullptr`). -/
structure ComponentInfo (α : Type) where
  entity : Option Nat
  component : α
deriving DecidableEq

/-- `secs::SystemBase<TComponent>` (System.hpp): the per-component-type slot
table.  `m_Components` is the `std::deque<std::optional<ComponentInfo>>` and
`m_ComponentCount` the `std::size_t` active count. -/
structure SystemBase (α : Type) where
  m_ComponentCount : Nat := 0
  m_Components : List (Option (ComponentInfo α)) := []
deriving DecidableEq

/-- `std::find(begin(m_Components), end(m_Components), std::nullopt)` inside
`createComponent`: the index of the first free slot in storage order. -/
def firstFreeSlot : List (Option (ComponentInfo α)) → Option Nat
  | [] => Option.none
  | slot :: rest =>
    match slot with
    | Option.none => some 0
    | some _ => (firstFreeSlot rest).map (· + 1)

/-- `SystemBase::createComponent` (System.hpp:162-175).  The creator callback
is modelled by the value `a` it returns (the default creator yields the
component type's default value).  The first free slot found by the linear
`std::find` scan is reused, otherwise a slot is appended; the 1-based slot id
is returned together with the updated table. -/
def SystemBase.createComponent (s : SystemBase α) (a : α) : SystemBase α × Nat :=
  match firstFreeSlot s.m_Components with
  | some idx =>
    ({ m_ComponentCount := incSizeT s.m_ComponentCount,
       m_Components := s.m_Components.set idx (some { entity := Option.none, component := a }) },
     idx + 1)
  | Option.none =>
    ({ m_ComponentCount := incSizeT s.m_ComponentCount,
       m_Components := s.m_Components ++ [some { entity := Option.none, component := a }] },
     s.m_Components.length + 1)

/-- `SystemBase::hasComponent` (System.hpp:177-180). -/
def SystemBase.hasComponent (s : SystemBase α) (uid : Nat) : Bool :=
  decide (0 < uid) && decide (uid ≤ s.m_Components.length) &&
    (s.m_Components.getD (uid - 1) Option.none).isSome

/-- `SystemBase::findComponent` (System.hpp:182-190): total lookup; the
returned `nullptr` is modelled as `Option.none`, a valid pointer as the
pointee. -/
def SystemBase.findComponent (s : SystemBase α) (uid : Nat) : Option α :=
  if 0 < uid ∧ uid ≤ s.m_Components.length then
    match s.m_Components.getD (uid - 1) Option.none with
    | some info => some info.component
    | Option.none => Option.none
  else
    Option.none

/-- `SystemBase::component` (System.hpp:197-205): throwing lookup; the thrown
`SystemError` is modelled as `Except.error`.  The C++ member is `const`, so a
throw cannot modify the table.  (The inner `Option.none` branch is unreachable:
`hasComponent` has checked occupancy.) -/
def SystemBase.component (s : SystemBase α) (uid : Nat) : Except String α :=
  if s.hasComponent uid then
    match s.m_Components.getD (uid - 1) Option.none with
    | some info => Except.ok info.component
    | Option.none => Except.error "Component uid not found."
  else
    Except.error "Component uid not found."

/-- `SystemBase::size` (System.hpp:212-215): the active count. -/
def SystemBase.size (s : SystemBase α) : Nat := s.m_ComponentCount

/-- `SystemBase::empty` (System.hpp:217-220). -/
def SystemBase.empty (s : SystemBase α) : Bool := s.m_ComponentCount == 0

/-- `SystemBase::forEachComponent` (System.hpp:222-233): applies the action to
every occupied slot in storage order.  The modelled actions (the repository's
`TestSystem` hooks) only mutate the component, so the action is `α → α`; the
entity reference the C++ visitor also receives is unused by them. -/
def SystemBase.forEachComponent (s : SystemBase α) (action : α → α) : SystemBase α :=
  { s with m_Components := s.m_Components.map (fun slot =>
      slot.map (fun info => { info with component := action info.component })) }

/-- `SystemBase::setComponentEntity` (System.hpp:258-262): binds the
back-reference of slot `uid` to entity `e`.  The `assert(hasComponent(uid))`
holds at every call site (the slot was created moments before). -/
def SystemBase.setComponentEntity (s : SystemBase α) (uid : Nat) (e : Nat) : SystemBase α :=
  let bound := (s.m_Components.getD (uid - 1) Option.none).map
    (fun info => { info with entity := some e })
  { s with m_Components := s.m_Components.set (uid - 1) bound }

/-- `SystemBase::destroyComponent` (System.hpp:264-271):

    if (uid <= std::size(m_Components)) \x7b m_Components[uid - 1].reset(); --m_ComponentCount; \x7d

`uid - 1` is `std::size_t` arithmetic: for `uid = 0` the guard `0 <= size`
passes and the index wraps to `2^64 - 1`, an out-of-bounds `std::deque` access
(a live deque always has fewer than `2^64` elements) — undefined behaviour,
modelled as `Option.none`.  For an in-range uid the slot is cleared and the
count decremented, whether or not the slot was still occupied. -/
def SystemBase.destroyComponent (s : SystemBase α) (uid : Nat) : Option (SystemBase α) :=
  if uid ≤ s.m_Components.length then
    if uid = 0 then
      Option.none
    else
      some { m_ComponentCount := decSizeT s.m_ComponentCount,
             m_Components := s.m_Components.set (uid - 1) Option.none }
  else
    some s

end Secs

namespace Secs

/-! ### Basic facts about the slot table -/

theorem firstFreeSlot_spec (l : List (Option (ComponentInfo α))) :
    (∀ i, firstFreeSlot l = some i →
      i < l.length ∧ l.getD i Option.none = Option.none ∧
        ∀ j, j < i → (l.getD j Option.none).isSome = true) ∧
    (firstFreeSlot l = Option.none → ∀ j, j < l.length → (l.getD j Option.none).isSome = true) := by
  induction l with
  | nil => simp [firstFreeSlot]
  | cons slot rest ih =>
    cases slot with
    | none => simp [firstFreeSlot]
    | some info =>
      have hunf : firstFreeSlot (some info :: rest) = (firstFreeSlot rest).map (· + 1) := rfl
      constructor
      · intro i hi
        rw [hunf] at hi
        cases h2 : firstFreeSlot rest with
        | none => rw [h2] at hi; simp at hi
        | some i0 =>
          rw [h2] at hi
          simp only [Option.map_some', Option.some.injEq] at hi
          subst hi
          obtain ⟨hlt, hfree, hocc⟩ := ih.1 i0 h2
          refine ⟨by simpa using hlt, by simpa using hfree, ?_⟩
          intro j hj
          cases j with
          | zero => simp
          | succ j0 => exact hocc j0 (by omega)
      · intro hnone j hj
        rw [hunf] at hnone
        cases h2 : firstFreeSlot rest with
        | none =>
          cases j with
          | zero => simp
          | succ j0 =>
            simp only [List.length_cons] at hj
            exact ih.2 h2 j0 (by omega)
        | some i0 => rw [h2] at hnone; simp at hnone

theorem createComponent_id_pos (s : SystemBase α) (a : α) :
    1 ≤ (s.createComponent a).2 := by
  unfold SystemBase.createComponent
  cases h : firstFreeSlot s.m_Components <;> simp

theorem getD_set_self (l : List β) (i : Nat) (v d : β) (h : i < l.length) :
    (l.set i v).getD i d = v := by
  induction l generalizing i with
  | nil => simp at h
  | cons x xs ih =>
    cases i with
    | zero => simp
    | succ i0 => simpa using ih i0 (by simpa using h)

theorem getD_set_ne (l : List β) (i j : Nat) (v d : β) (h : i ≠ j) :
    (l.set i v).getD j d = l.getD j d := by
  induction l generalizing i j with
  | nil => simp
  | cons x xs ih =>
    cases i with
    | zero => cases j with
      | zero => exact absurd rfl h
      | succ j0 => simp
    | succ i0 => cases j with
      | zero => simp
      | succ j0 => simpa using ih i0 j0 (by omega)

theorem getD_append_left (l l2 : List β) (j : Nat) (d : β) (h : j < l.length) :
    (l ++ l2).getD j d = l.getD j d := by
  induction l generalizing j with
  | nil => simp at h
  | cons x xs ih =>
    cases j with
    | zero => simp
    | succ j0 =>
      simp only [List.length_cons] at h
      simpa using ih j0 (by omega)

theorem getD_snoc_self (l : List β) (v d : β) :
    (l ++ [v]).getD l.length d = v := by
  induction l with
  | nil => simp
  | cons x xs ih =>
    show (x :: (xs ++ [v])).getD (xs.length + 1) d = v
    simp only [List.getD_cons_succ]
    exact ih

theorem firstFreeSlot_eq_some_of (l : List (Option (ComponentInfo α))) (i : Nat)
    (hi : i < l.length) (hfree : l.getD i Option.none = Option.none)
    (hocc : ∀ j, j < i → (l.getD j Option.none).isSome = true) :
    firstFreeSlot l = some i := by
  cases h : firstFreeSlot l with
  | none =>
    have := (firstFreeSlot_spec l).2 h i hi
    rw [hfree] at this
    simp at this
  | some i2 =>
    obtain ⟨hlt, hfree2, hocc2⟩ := (firstFreeSlot_spec l).1 i2 h
    rcases lt_trichotomy i i2 with hlt2 | rfl | hgt
    · have := hocc2 i hlt2
      rw [hfree] at this
      simp at this
    · rfl
    · have := hocc i2 hgt
      rw [hfree2] at this
      simp at this

theorem destroyComponent_inrange (s : SystemBase α) (uid : Nat) (h1 : uid ≠ 0)
    (h2 : uid ≤ s.m_Components.length) :
    s.destroyComponent uid =
      some { m_ComponentCount := decSizeT s.m_ComponentCount,
             m_Components := s.m_Components.set (uid - 1) Option.none } := by
  unfold SystemBase.destroyComponent
  rw [if_pos h2, if_neg h1]

theorem createComponent_eq_of_free (s : SystemBase α) (b : α) (i : Nat)
    (hff : firstFreeSlot s.m_Components = some i) :
    s.createComponent b =
      ({ m_ComponentCount := incSizeT s.m_ComponentCount,
         m_Components := s.m_Components.set i
           (some { entity := Option.none, component := b }) },
       i + 1) := by
  unfold SystemBase.createComponent
  rw [hff]

theorem createComponent_eq_of_full (s : SystemBase α) (b : α)
    (hff : firstFreeSlot s.m_Components = Option.none) :
    s.createComponent b =
      ({ m_ComponentCount := incSizeT s.m_ComponentCount,
         m_Components := s.m_Components ++
           [some { entity := Option.none, component := b }] },
       s.m_Components.length + 1) := by
  unfold SystemBase.createComponent
  rw [hff]

theorem findComponent_set_self (l : List (Option (ComponentInfo α))) (c : Nat) (i : Nat)
    (hi : i < l.length) (info : ComponentInfo α) :
    SystemBase.findComponent
        { m_ComponentCount := c, m_Components := l.set i (some info) } (i + 1)
      = some info.component := by
  simp only [SystemBase.findComponent]
  rw [if_pos (show 0 < i + 1 ∧ i + 1 ≤ (l.set i (some info)).length by
    simp only [List.length_set]
    omega)]
  simp only [Nat.add_sub_cancel]
  rw [getD_set_self _ _ _ _ (by simpa using hi)]

theorem firstFree_set_free (l : List (Option (ComponentInfo α))) (i : Nat)
    (hi : i < l.length)
    (hocc : ∀ j, j < i → (l.getD j Option.none).isSome = true) :
    firstFreeSlot (l.set i Option.none) = some i := by
  apply firstFreeSlot_eq_some_of
  · simpa using hi
  · rw [getD_set_self _ _ _ _ (by simpa using hi)]
  · intro j hj
    rw [getD_set_ne _ _ _ _ _ (by omega)]
    exact hocc j hj

/-! ### Claim C4: first-fit slot allocation, never-zero ids, slot recycling -/

/-- C4.  `createComponent` constructs the payload in place and returns the
1-based id of the first free slot in storage order when one exists (every
earlier slot is occupied and the chosen slot was free), otherwise appends a new
slot and returns its 1-based index; the returned id is never 0; and a slot
freed by `destroyComponent` is reused by the next `createComponent` call, which
then stores the new payload there. -/
theorem createComponent_first_fit_recycles (s : SystemBase α) (a b : α) :
    (s.createComponent a).2 ≠ 0
    ∧ (∀ j, j + 1 < (s.createComponent a).2 →
        (s.m_Components.getD j Option.none).isSome = true)
    ∧ ((s.createComponent a).2 ≤ s.m_Components.length →
        s.m_Components.getD ((s.createComponent a).2 - 1) Option.none = Option.none)
    ∧ (s.m_Components.length < (s.createComponent a).2 →
        (s.createComponent a).2 = s.m_Components.length + 1
        ∧ (s.createComponent a).1.m_Components.length = s.m_Components.length + 1)
    ∧ (s.createComponent a).1.findComponent (s.createComponent a).2 = some a
    ∧ (∃ s2, (s.createComponent a).1.destroyComponent (s.createComponent a).2 = some s2
        ∧ (s2.createComponent b).2 = (s.createComponent a).2
        ∧ (s2.createComponent b).1.findComponent (s.createComponent a).2 = some b) := by
  cases h : firstFreeSlot s.m_Components with
  | some idx =>
    obtain ⟨hlt, hfree, hocc⟩ := (firstFreeSlot_spec s.m_Components).1 idx h
    have hC := createComponent_eq_of_free s a idx h
    have hcr1 : (s.createComponent a).1 =
        { m_ComponentCount := incSizeT s.m_ComponentCount,
          m_Components := s.m_Components.set idx
            (some { entity := Option.none, component := a }) } := by
      rw [hC]
    have hcr2 : (s.createComponent a).2 = idx + 1 := by
      rw [hC]
    have hd := destroyComponent_inrange
      ({ m_ComponentCount := incSizeT s.m_ComponentCount,
         m_Components := s.m_Components.set idx
           (some { entity := Option.none, component := a }) } : SystemBase α)
      (idx + 1) (Nat.succ_ne_zero idx)
      (show idx + 1 ≤ (s.m_Components.set idx
          (some { entity := Option.none, component := a })).length by
        simp only [List.length_set]
        omega)
    simp only [Nat.add_sub_cancel] at hd
    have hffS2 : firstFreeSlot ((s.m_Components.set idx
        (some { entity := Option.none, component := a })).set idx Option.none) = some idx := by
      apply firstFree_set_free
      · simpa using hlt
      · intro j hj
        rw [getD_set_ne s.m_Components idx j
          (some { entity := Option.none, component := a }) Option.none (by omega)]
        exact hocc j hj
    have hB := createComponent_eq_of_free
      ({ m_ComponentCount := decSizeT (incSizeT s.m_ComponentCount),
         m_Components := (s.m_Components.set idx
           (some { entity := Option.none, component := a })).set idx Option.none } : SystemBase α)
      b idx hffS2
    refine ⟨by rw [hcr2]; omega, ?_, ?_, ?_, ?_, ?_⟩
    · intro j hj
      rw [hcr2] at hj
      exact hocc j (by omega)
    · intro _
      rw [hcr2]
      simpa using hfree
    · intro hbig
      rw [hcr2] at hbig
      omega
    · rw [hcr1, hcr2]
      simpa using findComponent_set_self s.m_Components (incSizeT s.m_ComponentCount) idx hlt
        { entity := Option.none, component := a }
    · rw [hcr1, hcr2]
      refine ⟨_, hd, ?_, ?_⟩
      · rw [hB]
      · rw [hB]
        simpa using findComponent_set_self
          ((s.m_Components.set idx (some { entity := Option.none, component := a })).set idx
            Option.none)
          (incSizeT (decSizeT (incSizeT s.m_ComponentCount))) idx (by simpa using hlt)
          { entity := Option.none, component := b }
  | none =>
    have hall := (firstFreeSlot_spec s.m_Components).2 h
    have hC := createComponent_eq_of_full s a h
    have hcr1 : (s.createComponent a).1 =
        { m_ComponentCount := incSizeT s.m_ComponentCount,
          m_Components := s.m_Components ++
            [some { entity := Option.none, component := a }] } := by
      rw [hC]
    have hcr2 : (s.createComponent a).2 = s.m_Components.length + 1 := by
      rw [hC]
    have hd := destroyComponent_inrange
      ({ m_ComponentCount := incSizeT s.m_ComponentCount,
         m_Components := s.m_Components ++
           [some ({ entity := Option.none, component := a } : ComponentInfo α)] } : SystemBase α)
      (s.m_Components.length + 1) (Nat.succ_ne_zero _)
      (show s.m_Components.length + 1 ≤ (s.m_Components ++
          [some ({ entity := Option.none, component := a } : ComponentInfo α)]).length by simp)
    simp only [Nat.add_sub_cancel] at hd
    have hffS2 : firstFreeSlot ((s.m_Components ++
        [some ({ entity := Option.none, component := a } : ComponentInfo α)]).set
          s.m_Components.length Option.none) = some s.m_Components.length := by
      apply firstFree_set_free
      · simp
      · intro j hj
        rw [getD_append_left s.m_Components
          [some ({ entity := Option.none, component := a } : ComponentInfo α)] j Option.none hj]
        exact hall j hj
    have hB := createComponent_eq_of_free
      ({ m_ComponentCount := decSizeT (incSizeT s.m_ComponentCount),
         m_Components := (s.m_Components ++
           [some ({ entity := Option.none, component := a } : ComponentInfo α)]).set
             s.m_Components.length Option.none } : SystemBase α)
      b s.m_Components.length hffS2
    refine ⟨by rw [hcr2]; omega, ?_, ?_, ?_, ?_, ?_⟩
    · intro j hj
      rw [hcr2] at hj
      exact hall j (by omega)
    · intro hle
      rw [hcr2] at hle
      omega
    · intro _
      rw [hcr1, hcr2]
      exact ⟨rfl, by simp⟩
    · rw [hcr1, hcr2]
      have hgoal : SystemBase.findComponent
          ({ m_ComponentCount := incSizeT s.m_ComponentCount,
             m_Components := s.m_Components ++
               [some { entity := Option.none, component := a }] } : SystemBase α)
          (s.m_Components.length + 1) = some a := by
        simp only [SystemBase.findComponent]
        rw [if_pos (show 0 < s.m_Components.length + 1 ∧ s.m_Components.length + 1 ≤
            (s.m_Components ++ [some ({ entity := Option.none, component := a } :
              ComponentInfo α)]).length by
          simp)]
        simp only [Nat.add_sub_cancel]
        rw [getD_snoc_self]
      exact hgoal
    · rw [hcr1, hcr2]
      refine ⟨_, hd, ?_, ?_⟩
      · rw [hB]
      · rw [hB]
        simpa using findComponent_set_self
          ((s.m_Components ++ [some ({ entity := Option.none, component := a } :
            ComponentInfo α)]).set s.m_Components.length Option.none)
          (incSizeT (decSizeT (incSizeT s.m_ComponentCount))) s.m_Components.length
          (by simp) { entity := Option.none, component := b }

/-- A concrete two-slot table (slot 1 occupied, slot 2 free) used by the
witness theorems. -/
def sampleTable : SystemBase Int :=
  { m_ComponentCount := 1,
    m_Components := [some { entity := some 1, component := 5 }, Option.none] }

/-- C4 witness: the first-fit theorem instantiated at `sampleTable`. -/
theorem createComponent_first_fit_recycles_witness :
    (sampleTable.createComponent 7).2 ≠ 0
    ∧ (∀ j, j + 1 < (sampleTable.createComponent 7).2 →
        (sampleTable.m_Components.getD j Option.none).isSome = true)
    ∧ ((sampleTable.createComponent 7).2 ≤ sampleTable.m_Components.length →
        sampleTable.m_Components.getD ((sampleTable.createComponent 7).2 - 1) Option.none
          = Option.none)
    ∧ (sampleTable.m_Components.length < (sampleTable.createComponent 7).2 →
        (sampleTable.createComponent 7).2 = sampleTable.m_Components.length + 1
        ∧ (sampleTable.createComponent 7).1.m_Components.length
            = sampleTable.m_Components.length + 1)
    ∧ (sampleTable.createComponent 7).1.findComponent (sampleTable.createComponent 7).2
        = some 7
    ∧ (∃ s2, (sampleTable.createComponent 7).1.destroyComponent
          (sampleTable.createComponent 7).2 = some s2
        ∧ (s2.createComponent 9).2 = (sampleTable.createComponent 7).2
        ∧ (s2.createComponent 9).1.findComponent (sampleTable.createComponent 7).2
            = some 9) :=
  createComponent_first_fit_recycles sampleTable 7 9

/-! ### Claim C5: total lookups, `component` raises exactly when lookup fails -/

/-- C5.  `findComponent` is total and returns `nullptr` exactly for id 0, an
out-of-range id, or a freed slot, and otherwise the stored payload;
`component` yields its `SystemError` exactly in the cases where
`findComponent` returns `nullptr` (and, being a `const` member, a raising call
cannot change the table). -/
theorem findComponent_total_component_raises_iff (s : SystemBase α) (uid : Nat) :
    (s.findComponent uid = Option.none ↔
      uid = 0 ∨ s.m_Components.length < uid
        ∨ s.m_Components.getD (uid - 1) Option.none = Option.none)
    ∧ (∀ info, s.m_Components.getD (uid - 1) Option.none = some info →
        0 < uid → uid ≤ s.m_Components.length → s.findComponent uid = some info.component)
    ∧ (∀ a, s.component uid = Except.ok a ↔ s.findComponent uid = some a)
    ∧ ((∃ msg, s.component uid = Except.error msg) ↔ s.findComponent uid = Option.none) := by
  by_cases hc : 0 < uid ∧ uid ≤ s.m_Components.length
  · have hhas : s.hasComponent uid =
        (s.m_Components.getD (uid - 1) Option.none).isSome := by
      simp [SystemBase.hasComponent, hc.1, hc.2]
    rcases hslot : s.m_Components.getD (uid - 1) Option.none with _ | info
    · have hfind : s.findComponent uid = Option.none := by
        unfold SystemBase.findComponent
        rw [if_pos hc, hslot]
      have hcomp : s.component uid = Except.error "Component uid not found." := by
        unfold SystemBase.component
        rw [hhas, hslot]
        simp
      refine ⟨?_, ?_, ?_, ?_⟩
      · simp [hfind, hslot]
      · intro info hinfo _ _
        exact Option.noConfusion hinfo
      · intro a
        simp [hcomp, hfind]
      · simp [hcomp, hfind]
    · have hfind : s.findComponent uid = some info.component := by
        unfold SystemBase.findComponent
        rw [if_pos hc, hslot]
      have hcomp : s.component uid = Except.ok info.component := by
        unfold SystemBase.component
        rw [hhas, hslot]
        simp
      refine ⟨?_, ?_, ?_, ?_⟩
      · rw [hfind]
        constructor
        · intro hcontra
          exact Option.noConfusion hcontra
        · intro hor
          rcases hor with h0 | h1 | h2
          · exact absurd h0 (by omega)
          · exact absurd h1 (by omega)
          · exact Option.noConfusion h2
      · intro info2 hinfo2 _ _
        cases hinfo2
        exact hfind
      · intro a
        simp [hcomp, hfind]
      · simp [hcomp, hfind]
  · have hfind : s.findComponent uid = Option.none := by
      unfold SystemBase.findComponent
      rw [if_neg hc]
    have hhas : s.hasComponent uid = false := by
      simp only [SystemBase.hasComponent]
      rcases Nat.eq_zero_or_pos uid with h0 | h0
      · subst h0
        simp
      · have h1 : ¬ uid ≤ s.m_Components.length := fun hle => hc ⟨h0, hle⟩
        simp [h1]
    have hcomp : s.component uid = Except.error "Component uid not found." := by
      unfold SystemBase.component
      rw [hhas]
      simp
    refine ⟨?_, ?_, ?_, ?_⟩
    · simp only [hfind, true_iff]
      rcases Nat.eq_zero_or_pos uid with h0 | h0
      · exact Or.inl h0
      · have h1 : ¬ uid ≤ s.m_Components.length := fun hle => hc ⟨h0, hle⟩
        exact Or.inr (Or.inl (Nat.lt_of_not_le h1))
    · intro info _ h0 h1
      exact absurd ⟨h0, h1⟩ hc
    · intro a
      simp [hcomp, hfind]
    · simp [hcomp, hfind]

/-- A second concrete table (slot 1 free, slot 2 occupied) for the C5
witness. -/
def sampleTable2 : SystemBase Int :=
  { m_ComponentCount := 1,
    m_Components := [Option.none, some { entity := some 3, component := 11 }] }

/-- C5 witness: the lookup characterization at `sampleTable2` and id 2. -/
theorem findComponent_total_component_raises_iff_witness :
    (sampleTable2.findComponent 2 = Option.none ↔
      (2 : Nat) = 0 ∨ sampleTable2.m_Components.length < 2
        ∨ sampleTable2.m_Components.getD (2 - 1) Option.none = Option.none)
    ∧ (∀ info, sampleTable2.m_Components.getD (2 - 1) Option.none = some info →
        0 < 2 → 2 ≤ sampleTable2.m_Components.length →
          sampleTable2.findComponent 2 = some info.component)
    ∧ (∀ a, sampleTable2.component 2 = Except.ok a ↔ sampleTable2.findComponent 2 = some a)
    ∧ ((∃ msg, sampleTable2.component 2 = Except.error msg) ↔
        sampleTable2.findComponent 2 = Option.none) :=
  findComponent_total_component_raises_iff sampleTable2 2

/-! ### Claim C2: `destroyComponent` is *not* an idempotent no-op on free slots -/

/-- C2 (code bug exhibit).  Destroying slot 1 of a one-slot table twice: the
first call frees the slot and brings the active count to 0; the second call —
which the specification requires to be a no-op — decrements the `std::size_t`
count again, wrapping it to `2^64 - 1`.  And `destroyComponent(0)` passes the
`uid <= size` guard and performs an out-of-bounds deque access (undefined
behaviour, `Option.none` in the model) instead of being a no-op. -/
theorem destroyComponent_double_destroy_not_idempotent :
    (((SystemBase.createComponent ({} : SystemBase Int) 0).1.destroyComponent 1).bind
      (fun s2 => (s2.destroyComponent 1).map
        (fun s3 => (s2.m_ComponentCount, s3.m_ComponentCount))))
      = some (0, sizeTMod - 1)
    ∧ ((SystemBase.createComponent ({} : SystemBase Int) 0).1.destroyComponent 0
        = Option.none) := by
  constructor <;> rfl

/-! ### The entity lifecycle object -/

/-- `secs::Entity` (Entity.hpp): uid, lifecycle state and the
`detail::ComponentStorageInfo` list.  The world modelled here owns a single
registered system, so of each info tuple `(systemPtr, componentUid,
componentTypeIndex, rtti)` only the component uid varies between entries; the
info list is therefore the list of owned component uids. -/
structure Entity where
  m_Uid : Nat
  m_State : EntityState := EntityState.none
  m_ComponentInfos : List Nat
deriving DecidableEq

/-- `Entity::changeState` (Entity.hpp): asserts that the state strictly
increases (`assert(static_cast<int>(m_State) < static_cast<int>(state))`,
fatal otherwise — modelled as `Option.none`), stores the new state, then
notifies every owned component's system through the rtti table
(`entityStateChanged`).  The returned list is the notification trace: the
component uid of each `entityStateChanged` call, in order.  The modelled
system keeps `SystemBase`'s default no-op `derivedEntityStateChanged`, so the
notifications do not modify the table. -/
def Entity.changeState (e : Entity) (state : EntityState) : Option (Entity × List Nat) :=
  if e.m_State.toCInt < state.toCInt then
    some ({ e with m_State := state }, e.m_ComponentInfos)
  else
    Option.none

/-- `Entity::~Entity` (Entity.hpp): destroys every owned component slot
through the rtti table (`info.rtti->destroy(info.systemPtr,
info.componentUid)`), exactly once per info entry. -/
def Entity.destructor (s : SystemBase α) (e : Entity) : Option (SystemBase α) :=
  e.m_ComponentInfos.foldlM SystemBase.destroyComponent s

/-! ### The registry (`World`) with one registered system -/

/-- The overridable per-cycle hooks of the one registered system
(`ISystem::preUpdate/update/postUpdate`; `SystemBase`'s defaults are no-ops).
The modelled subclass implements each hook as `forEachComponent` with a
per-component action, exactly like the repository's `TestSystem`;
`update`'s float delta is not consumed by any modelled hook and is dropped.
`defaultComponent` is the payload `TComponent\x7b\x7d` produced by the default
`EmptyCallable` creator when `World::makeComponentStorageInfo` calls
`createComponent()`. -/
structure SystemHooks (α : Type) where
  onPreUpdate : α → α := id
  onUpdate : α → α := id
  onPostUpdate : α → α := id
  defaultComponent : α

/-- `secs::World` (World.hpp), instantiated with one registered system over
component type `α`.  The mutexes and the atomic only guard concurrent access
and carry no state of their own; they are dropped.  The four entity queues own
their entities (`std::vector<std::unique_ptr<Entity>>`, by value here). -/
structure World (α : Type) where
  hooks : SystemHooks α
  sys : SystemBase α := {}
  m_EntityCount : Nat := 0
  m_NextUID : Nat := 1
  m_NewEntities : List Entity := []
  m_InitializingEntities : List Entity := []
  m_Entities : List Entity := []
  m_DestructibleEntities : List Nat := []
  m_TeardownEntities : List Entity := []

/-- A freshly constructed `World` holding one registered system. -/
def World.init (hooks : SystemHooks α) : World α := { hooks := hooks }

/-- `World::createEntity<TComponent>` (World.hpp:198-212): assigns
`m_NextUID++`, creates one component in the registered system
(`makeComponentStorageInfo`, default-constructed payload), constructs the
`Entity` — whose constructor binds the component back-reference via the rtti
`setEntity`/`setComponentEntity` — appends it to the *new* queue and bumps the
entity count.  Returns the world and the new entity's uid. -/
def World.createEntity (w : World α) : World α × Nat :=
  let entityUID := w.m_NextUID
  let created := w.sys.createComponent w.hooks.defaultComponent
  let sys2 := created.1.setComponentEntity created.2 entityUID
  let e : Entity := { m_Uid := entityUID, m_State := EntityState.none,
                      m_ComponentInfos := [created.2] }
  ({ w with m_NextUID := incSizeT w.m_NextUID,
            sys := sys2,
            m_NewEntities := w.m_NewEntities ++ [e],
            m_EntityCount := incSizeT w.m_EntityCount }, entityUID)

/-- `World::destroyEntityLater` (World.hpp:222-226): enqueues the uid without
any validation. -/
def World.destroyEntityLater (w : World α) (uid : Nat) : World α :=
  { w with m_DestructibleEntities := w.m_DestructibleEntities ++ [uid] }

/-- `World::findEntityItr` (World.hpp:410-419): `std::lower_bound` over a
uid-sorted container — the first entity whose uid is not less than `uid` —
followed by an exact-uid check.  Every container searched is maintained sorted
by uid, on which the first element satisfying `uid ≤ e.uid` is exactly what
`std::lower_bound` returns. -/
def findEntityItr (container : List Entity) (uid : Nat) : Option Entity :=
  match container.find? (fun e => decide (uid ≤ e.m_Uid)) with
  | some e => if e.m_Uid = uid then some e else Option.none
  | Option.none => Option.none

/-- `World::findEntity` (World.hpp:237-260): searches the running,
initializing, new and teardown queues, in that order. -/
def World.findEntity (w : World α) (uid : Nat) : Option Entity :=
  match findEntityItr w.m_Entities uid with
  | some e => some e
  | Option.none =>
    match findEntityItr w.m_InitializingEntities uid with
    | some e => some e
    | Option.none =>
      match findEntityItr w.m_NewEntities uid with
      | some e => some e
      | Option.none => findEntityItr w.m_TeardownEntities uid

/-- `World::entity` (World.hpp:286-292): throwing lookup; the thrown
`EntityError` is modelled as `Except.error`. -/
def World.entity (w : World α) (uid : Nat) : Except String Entity :=
  match w.findEntity uid with
  | some e => Except.ok e
  | Option.none => Except.error "Entity uid not found"

/-- `World::preUpdate` (World.hpp:324-328): calls every registered system's
`preUpdate`; the single modelled system's override applies its per-component
action via `forEachComponent`. -/
def World.preUpdate (w : World α) : World α :=
  { w with sys := w.sys.forEachComponent w.hooks.onPreUpdate }

/-- `World::update` (World.hpp:336-340): calls every system's
`update(delta)`; the modelled hook ignores the float delta. -/
def World.update (w : World α) : World α :=
  { w with sys := w.sys.forEachComponent w.hooks.onUpdate }

/-- `World::postUpdateSystems` (World.hpp:404-408). -/
def World.postUpdateSystems (w : World α) : World α :=
  { w with sys := w.sys.forEachComponent w.hooks.onPostUpdate }

/-- The `for (auto& entity : range) entity->changeState(state)` loops: each
entity in the range transitions in place (an assertion failure anywhere is
fatal, modelled as `Option.none`); the no-op notification traces are
dropped. -/
def changeStateAll (l : List Entity) (st : EntityState) : Option (List Entity) :=
  l.mapM (fun e => (e.changeState st).map Prod.fst)

/-- `World::processNewEntities` (World.hpp:435-442): drains the new queue
(`takeNewEntities`) into the initializing queue and transitions each drained
entity to `initializing`. -/
def World.processNewEntities (w : World α) : Option (World α) :=
  (changeStateAll w.m_NewEntities EntityState.initializing).map
    (fun inits => { w with m_NewEntities := [], m_InitializingEntities := inits })

/-- `World::processInitializingEntities` (World.hpp:444-455): if the
initializing queue is non-empty, transitions it to `running` and appends it to
the running set (which stays uid-sorted because initializing entities were all
created after every running one). -/
def World.processInitializingEntities (w : World α) : Option (World α) :=
  if w.m_InitializingEntities.isEmpty then
    some w
  else
    (changeStateAll w.m_InitializingEntities EntityState.running).map
      (fun run => { w with m_Entities := w.m_Entities ++ run,
                           m_InitializingEntities := [] })

/-- Insertion into a `≤`-sorted list. -/
def sortedInsert (x : Nat) : List Nat → List Nat
  | [] => [x]
  | y :: ys => if x ≤ y then x :: y :: ys else y :: sortedInsert x ys

/-- `std::sort` on the drained uid vector (World.hpp:467), modelled as
insertion sort — the same `≤`-sorted result on `Nat`. -/
def sortUids : List Nat → List Nat
  | [] => []
  | x :: xs => sortedInsert x (sortUids xs)

/-- `std::unique` + `erase` (World.hpp:468) on the sorted vector: drops
adjacent duplicates. -/
def dedupAdjacent : List Nat → List Nat
  | [] => []
  | [x] => [x]
  | x :: y :: rest =>
    if x = y then dedupAdjacent (y :: rest) else x :: dedupAdjacent (y :: rest)

/-- The `moveDestructibleEntities` lambda (World.hpp:471-482):
`std::set_intersection` over the uid-sorted entity range and the sorted,
duplicate-free id list moves (via `std::make_move_iterator`) exactly the
entities whose uid occurs among the ids into the teardown vector, in range
order, and the `erase`/`std::remove` pass keeps the remaining (non-moved-from)
entities in order.  On sorted inputs this is the pair of filters below; the
first component is the kept range, the second the moved entities. -/
def moveDestructibleEntities (entityRange : List Entity) (ids : List Nat) :
    List Entity × List Entity :=
  (entityRange.filter (fun e => !ids.contains e.m_Uid),
   entityRange.filter (fun e => ids.contains e.m_Uid))

/-- `World::processEntityDestruction` (World.hpp:457-493): asserts
`size(m_TeardownEntities) <= m_EntityCount` (modelled as `Option.none` on
failure), subtracts the teardown queue from the entity count and clears it —
running each teardown entity's destructor, which frees its component slots —
then drains the destruction requests (`takeDestructibleEntityUIDs`); if any,
sorts and de-duplicates them, moves every matching entity out of the running,
initializing and new queues into the teardown queue, and transitions the
moved entities to `teardown`. -/
def World.processEntityDestruction (w : World α) : Option (World α) :=
  if w.m_TeardownEntities.length ≤ w.m_EntityCount then
    (w.m_TeardownEntities.foldlM Entity.destructor w.sys).bind (fun sys2 =>
      let base : World α :=
        { w with m_EntityCount := w.m_EntityCount - w.m_TeardownEntities.length,
                 m_TeardownEntities := [],
                 sys := sys2,
                 m_DestructibleEntities := [] }
      if w.m_DestructibleEntities.isEmpty then
        some base
      else
        let ids := dedupAdjacent (sortUids w.m_DestructibleEntities)
        let kept := moveDestructibleEntities base.m_Entities ids
        let keptInit := moveDestructibleEntities base.m_InitializingEntities ids
        let keptNew := moveDestructibleEntities base.m_NewEntities ids
        (changeStateAll (kept.2 ++ keptInit.2 ++ keptNew.2) EntityState.teardown).map
          (fun teardown =>
            { base with m_Entities := kept.1,
                        m_InitializingEntities := keptInit.1,
                        m_NewEntities := keptNew.1,
                        m_TeardownEntities := teardown }))
  else
    Option.none

/-- `World::postUpdate` (World.hpp:349-356): system `postUpdate` hooks, then
the three lifecycle phases, in this fixed order. -/
def World.postUpdate (w : World α) : Option (World α) :=
  (w.postUpdateSystems.processInitializingEntities).bind (fun w2 =>
    (w2.processNewEntities).bind (fun w3 => w3.processEntityDestruction))

/-! ### Invariant vocabulary -/

/-- The in-place state write performed by a successful `changeState`. -/
def withState (st : EntityState) (e : Entity) : Entity := { e with m_State := st }

/-- The uids of a queue, in queue order. -/
def uidsOf (l : List Entity) : List Nat := l.map Entity.m_Uid

/-- Uids of the three live (non-teardown) queues. -/
def World.liveUids (w : World α) : List Nat :=
  uidsOf w.m_Entities ++ uidsOf w.m_InitializingEntities ++ uidsOf w.m_NewEntities

/-- Number of entities stored in the four queues. -/
def World.totalEntities (w : World α) : Nat :=
  w.m_Entities.length + w.m_InitializingEntities.length + w.m_NewEntities.length
    + w.m_TeardownEntities.length

/-- Well-formedness invariant of a `World`, established at construction and
maintained by every operation: each queue is strictly uid-sorted; running
entities precede initializing ones, and those precede new ones, in uid order;
every stored uid is below `m_NextUID`; each queue holds entities in its
lifecycle state; no stored component-info uid is 0; and `m_EntityCount`
counts the stored entities. -/
structure WF (w : World α) : Prop where
  sortedRun : (uidsOf w.m_Entities).Pairwise (· < ·)
  sortedInit : (uidsOf w.m_InitializingEntities).Pairwise (· < ·)
  sortedNew : (uidsOf w.m_NewEntities).Pairwise (· < ·)
  sortedTd : (uidsOf w.m_TeardownEntities).Pairwise (· < ·)
  crossRunInit : ∀ u ∈ uidsOf w.m_Entities, ∀ v ∈ uidsOf w.m_InitializingEntities, u < v
  crossLiveNew : ∀ u ∈ uidsOf w.m_Entities ++ uidsOf w.m_InitializingEntities,
    ∀ v ∈ uidsOf w.m_NewEntities, u < v
  bound : ∀ u ∈ w.liveUids ++ uidsOf w.m_TeardownEntities, u < w.m_NextUID
  stRun : ∀ e ∈ w.m_Entities, e.m_State = EntityState.running
  stInit : ∀ e ∈ w.m_InitializingEntities, e.m_State = EntityState.initializing
  stNew : ∀ e ∈ w.m_NewEntities, e.m_State = EntityState.none
  stTd : ∀ e ∈ w.m_TeardownEntities, e.m_State = EntityState.teardown
  infosNz : ∀ e ∈ w.m_Entities ++ w.m_InitializingEntities ++ w.m_NewEntities
    ++ w.m_TeardownEntities, ∀ c ∈ e.m_ComponentInfos, c ≠ 0
  count : w.m_EntityCount = w.totalEntities

/-! ### Queue lemmas -/

theorem mem_sortedInsert (x u : Nat) (l : List Nat) :
    u ∈ sortedInsert x l ↔ u = x ∨ u ∈ l := by
  induction l with
  | nil => simp [sortedInsert]
  | cons y ys ih =>
    unfold sortedInsert
    by_cases hxy : x ≤ y
    · simp [hxy]
    · simp only [if_neg hxy, List.mem_cons, ih]
      tauto

theorem mem_sortUids (u : Nat) (l : List Nat) : u ∈ sortUids l ↔ u ∈ l := by
  induction l with
  | nil => simp [sortUids]
  | cons x xs ih =>
    unfold sortUids
    rw [mem_sortedInsert]
    simp [ih]

theorem mem_dedupAdjacent (u : Nat) (l : List Nat) : u ∈ dedupAdjacent l ↔ u ∈ l := by
  induction l with
  | nil => simp [dedupAdjacent]
  | cons x xs ih =>
    cases xs with
    | nil => simp [dedupAdjacent]
    | cons y ys =>
      unfold dedupAdjacent
      by_cases hxy : x = y
      · subst hxy
        rw [if_pos rfl, ih]
        simp only [List.mem_cons]
        tauto
      · rw [if_neg hxy]
        simp only [List.mem_cons] at ih ⊢
        rw [ih]

theorem sortedInsert_sorted (x : Nat) (l : List Nat) (h : l.Pairwise (· ≤ ·)) :
    (sortedInsert x l).Pairwise (· ≤ ·) := by
  induction l with
  | nil => simp [sortedInsert]
  | cons y ys ih =>
    rw [List.pairwise_cons] at h
    unfold sortedInsert
    by_cases hxy : x ≤ y
    · rw [if_pos hxy, List.pairwise_cons]
      constructor
      · intro a ha
        rcases List.mem_cons.mp ha with rfl | ha2
        · exact hxy
        · exact le_trans hxy (h.1 a ha2)
      · rw [List.pairwise_cons]
        exact h
    · rw [if_neg hxy, List.pairwise_cons]
      constructor
      · intro a ha
        rcases (mem_sortedInsert x a ys).mp ha with rfl | ha2
        · omega
        · exact h.1 a ha2
      · exact ih h.2

theorem sortUids_sorted (l : List Nat) : (sortUids l).Pairwise (· ≤ ·) := by
  induction l with
  | nil => simp [sortUids]
  | cons x xs ih => exact sortedInsert_sorted x (sortUids xs) ih

theorem dedupAdjacent_strict (l : List Nat) (h : l.Pairwise (· ≤ ·)) :
    (dedupAdjacent l).Pairwise (· < ·) := by
  induction l with
  | nil => simp [dedupAdjacent]
  | cons x xs ih =>
    cases xs with
    | nil => simp [dedupAdjacent]
    | cons y ys =>
      rw [List.pairwise_cons] at h
      unfold dedupAdjacent
      by_cases hxy : x = y
      · rw [if_pos hxy]
        exact ih h.2
      · rw [if_neg hxy, List.pairwise_cons]
        constructor
        · intro a ha
          rcases (mem_dedupAdjacent a (y :: ys)).mp ha with hmem
          have hle := h.1 a hmem
          have hxyle := h.1 y (List.mem_cons_self y ys)
          rcases List.mem_cons.mp hmem with rfl | ha2
          · omega
          · have := (List.pairwise_cons.mp h.2).1 a ha2
            omega
        · exact ih h.2

theorem findEntityItr_mem (l : List Entity) (e : Entity) (uid : Nat)
    (hs : (uidsOf l).Pairwise (· < ·)) (he : e ∈ l) (hu : e.m_Uid = uid) :
    findEntityItr l uid = some e := by
  induction l with
  | nil => cases he
  | cons a tl ih =>
    simp only [uidsOf, List.map_cons, List.pairwise_cons] at hs
    rcases List.mem_cons.mp he with rfl | htl
    · unfold findEntityItr
      rw [List.find?_cons, show (decide (uid ≤ e.m_Uid)) = true by simp [hu]]
      simp [hu]
    · have hlt : a.m_Uid < uid := by
        have := hs.1 e.m_Uid (by
          simpa [uidsOf] using List.mem_map_of_mem Entity.m_Uid htl)
        omega
      have hskip : (decide (uid ≤ a.m_Uid)) = false := by
        simp
        omega
      unfold findEntityItr at ih ⊢
      rw [List.find?_cons, hskip]
      exact ih hs.2 htl

theorem findEntityItr_not_mem (l : List Entity) (uid : Nat) (h : uid ∉ uidsOf l) :
    findEntityItr l uid = Option.none := by
  unfold findEntityItr
  cases hfind : l.find? (fun e => decide (uid ≤ e.m_Uid)) with
  | none => rfl
  | some e =>
    have hmem : e ∈ l := List.mem_of_find?_eq_some hfind
    have hne : ¬ e.m_Uid = uid := by
      intro hequ
      exact h (by
        simpa [uidsOf, hequ] using List.mem_map_of_mem Entity.m_Uid hmem)
    simp [hne]

theorem changeStateAll_eq (l : List Entity) (st : EntityState)
    (h : ∀ e ∈ l, e.m_State.toCInt < st.toCInt) :
    changeStateAll l st = some (l.map (withState st)) := by
  induction l with
  | nil => rfl
  | cons a tl ih =>
    have ha := h a (List.mem_cons_self a tl)
    have hhead : (a.changeState st).map Prod.fst = some (withState st a) := by
      unfold Entity.changeState
      rw [if_pos ha]
      rfl
    have htl := ih (fun e he => h e (List.mem_cons_of_mem a he))
    unfold changeStateAll at htl ⊢
    simp only [List.mapM_cons, hhead, htl]
    rfl

theorem uidsOf_map_withState (l : List Entity) (st : EntityState) :
    uidsOf (l.map (withState st)) = uidsOf l := by
  induction l with
  | nil => rfl
  | cons a tl ih =>
    simp only [uidsOf, List.map_cons] at ih ⊢
    rw [ih]
    rfl

theorem some_bind_eq (a : α) (f : α → Option β) : (some a).bind f = f a := rfl

theorem destroyAll_isSome (s : SystemBase α) (cs : List Nat) (h : ∀ c ∈ cs, c ≠ 0) :
    ∃ s2, cs.foldlM SystemBase.destroyComponent s = some s2 := by
  induction cs generalizing s with
  | nil => exact ⟨s, rfl⟩
  | cons c cst ih =>
    have hc := h c (List.mem_cons_self _ _)
    have hstep : ∃ s1, SystemBase.destroyComponent s c = some s1 := by
      unfold SystemBase.destroyComponent
      by_cases hle : c ≤ s.m_Components.length
      · rw [if_pos hle, if_neg hc]
        exact ⟨_, rfl⟩
      · rw [if_neg hle]
        exact ⟨s, rfl⟩
    obtain ⟨s1, hs1⟩ := hstep
    obtain ⟨s2, hs2⟩ := ih s1 (fun c2 hc2 => h c2 (List.mem_cons_of_mem _ hc2))
    refine ⟨s2, ?_⟩
    rw [List.foldlM_cons, hs1]
    simpa using hs2

theorem destructorAll_isSome (s : SystemBase α) (es : List Entity)
    (h : ∀ e ∈ es, ∀ c ∈ e.m_ComponentInfos, c ≠ 0) :
    ∃ s2, es.foldlM Entity.destructor s = some s2 := by
  induction es generalizing s with
  | nil => exact ⟨s, rfl⟩
  | cons e est ih =>
    obtain ⟨s1, hs1⟩ :=
      destroyAll_isSome s e.m_ComponentInfos (h e (List.mem_cons_self _ _))
    obtain ⟨s2, hs2⟩ := ih s1 (fun e2 he2 => h e2 (List.mem_cons_of_mem _ he2))
    refine ⟨s2, ?_⟩
    rw [List.foldlM_cons]
    unfold Entity.destructor
    rw [hs1]
    simpa using hs2

theorem processInitializingEntities_eq (w : World α)
    (h : ∀ e ∈ w.m_InitializingEntities, e.m_State = EntityState.initializing) :
    w.processInitializingEntities =
      some { w with
        m_Entities := w.m_Entities
          ++ w.m_InitializingEntities.map (withState EntityState.running),
        m_InitializingEntities := [] } := by
  unfold World.processInitializingEntities
  by_cases hemp : w.m_InitializingEntities.isEmpty
  · rw [if_pos hemp]
    have hnil : w.m_InitializingEntities = [] := by simpa using hemp
    obtain ⟨hooks, sys, cnt, nuid, newE, initE, runE, destE, tdE⟩ := w
    simp only at hnil
    subst hnil
    simp
  · rw [if_neg hemp]
    have hst : ∀ e ∈ w.m_InitializingEntities,
        e.m_State.toCInt < EntityState.running.toCInt := by
      intro e he
      rw [h e he]
      decide
    rw [changeStateAll_eq _ _ hst]
    rfl

theorem processNewEntities_eq (w : World α)
    (h : ∀ e ∈ w.m_NewEntities, e.m_State = EntityState.none) :
    w.processNewEntities =
      some { w with
        m_NewEntities := [],
        m_InitializingEntities :=
          w.m_NewEntities.map (withState EntityState.initializing) } := by
  unfold World.processNewEntities
  have hst : ∀ e ∈ w.m_NewEntities,
      e.m_State.toCInt < EntityState.initializing.toCInt := by
    intro e he
    rw [h e he]
    decide
  rw [changeStateAll_eq _ _ hst]
  rfl

theorem processEntityDestruction_eq (w : World α) (ids : List Nat)
    (hids : ids = dedupAdjacent (sortUids w.m_DestructibleEntities))
    (hcnt : w.m_TeardownEntities.length ≤ w.m_EntityCount)
    (hinfos : ∀ e ∈ w.m_TeardownEntities, ∀ c ∈ e.m_ComponentInfos, c ≠ 0)
    (hstRun : ∀ e ∈ w.m_Entities, e.m_State = EntityState.running)
    (hstInit : ∀ e ∈ w.m_InitializingEntities, e.m_State = EntityState.initializing)
    (hstNew : ∀ e ∈ w.m_NewEntities, e.m_State = EntityState.none) :
    ∃ sys2, w.m_TeardownEntities.foldlM Entity.destructor w.sys = some sys2 ∧
      w.processEntityDestruction = some
        { w with
          m_EntityCount := w.m_EntityCount - w.m_TeardownEntities.length,
          sys := sys2,
          m_DestructibleEntities := [],
          m_Entities := w.m_Entities.filter (fun e => !ids.contains e.m_Uid),
          m_InitializingEntities :=
            w.m_InitializingEntities.filter (fun e => !ids.contains e.m_Uid),
          m_NewEntities := w.m_NewEntities.filter (fun e => !ids.contains e.m_Uid),
          m_TeardownEntities :=
            ((w.m_Entities.filter (fun e => ids.contains e.m_Uid)
              ++ w.m_InitializingEntities.filter (fun e => ids.contains e.m_Uid)
              ++ w.m_NewEntities.filter (fun e => ids.contains e.m_Uid)).map
                (withState EntityState.teardown)) } := by
  obtain ⟨sys2, hsys2⟩ := destructorAll_isSome w.sys w.m_TeardownEntities hinfos
  refine ⟨sys2, hsys2, ?_⟩
  unfold World.processEntityDestruction
  rw [if_pos hcnt, hsys2]
  simp only [some_bind_eq]
  by_cases hde : w.m_DestructibleEntities.isEmpty
  · rw [if_pos hde]
    have hnil : w.m_DestructibleEntities = [] := by simpa using hde
    rw [hnil] at hids
    have hids0 : ids = [] := by
      rw [hids]
      rfl
    rw [hids0]
    simp
  · rw [if_neg hde]
    have hstates : ∀ e ∈ (moveDestructibleEntities w.m_Entities ids).2
        ++ (moveDestructibleEntities w.m_InitializingEntities ids).2
        ++ (moveDestructibleEntities w.m_NewEntities ids).2,
        e.m_State.toCInt < EntityState.teardown.toCInt := by
      intro e he
      rcases List.mem_append.mp he with h12 | h3
      · rcases List.mem_append.mp h12 with h1 | h2
        · have := List.mem_of_mem_filter h1
          rw [hstRun e this]
          decide
        · have := List.mem_of_mem_filter h2
          rw [hstInit e this]
          decide
      · have := List.mem_of_mem_filter h3
        rw [hstNew e this]
        decide
    rw [← hids]
    rw [changeStateAll_eq _ _ hstates]
    simp only [Option.map_some', Option.some.injEq]
    rfl

/-- One `postUpdate` on a well-formed world, characterized: system hooks run,
the old initializing entities become `running` and join the running set, the
new queue is drained into the initializing queue as `initializing`, and the
drained (sorted, de-duplicated) destruction requests move every matching live
entity into the (freshly cleared) teardown queue as `teardown`. -/
theorem postUpdate_eq (w : World α) (hwf : WF w) (ids : List Nat)
    (hids : ids = dedupAdjacent (sortUids w.m_DestructibleEntities)) :
    ∃ sys2, w.m_TeardownEntities.foldlM Entity.destructor
        (w.sys.forEachComponent w.hooks.onPostUpdate) = some sys2
      ∧ w.postUpdate = some
      { hooks := w.hooks,
        sys := sys2,
        m_EntityCount := w.m_EntityCount - w.m_TeardownEntities.length,
        m_NextUID := w.m_NextUID,
        m_NewEntities := [],
        m_InitializingEntities :=
          (w.m_NewEntities.map (withState EntityState.initializing)).filter
            (fun e => !ids.contains e.m_Uid),
        m_Entities :=
          (w.m_Entities ++ w.m_InitializingEntities.map (withState EntityState.running)).filter
            (fun e => !ids.contains e.m_Uid),
        m_DestructibleEntities := [],
        m_TeardownEntities :=
          (((w.m_Entities ++ w.m_InitializingEntities.map
                (withState EntityState.running)).filter (fun e => ids.contains e.m_Uid)
            ++ (w.m_NewEntities.map (withState EntityState.initializing)).filter
                (fun e => ids.contains e.m_Uid)).map (withState EntityState.teardown)) } := by
  obtain ⟨hooks, sys, cnt, nuid, newE, initE, runE, destE, tdE⟩ := w
  unfold World.postUpdate World.postUpdateSystems
  have h1 := processInitializingEntities_eq
    ({ hooks := hooks, sys := sys.forEachComponent hooks.onPostUpdate,
       m_EntityCount := cnt, m_NextUID := nuid, m_NewEntities := newE,
       m_InitializingEntities := initE, m_Entities := runE,
       m_DestructibleEntities := destE, m_TeardownEntities := tdE } : World α)
    (fun e he => hwf.stInit e he)
  rw [h1, some_bind_eq]
  have h2 := processNewEntities_eq
    ({ hooks := hooks, sys := sys.forEachComponent hooks.onPostUpdate,
       m_EntityCount := cnt, m_NextUID := nuid, m_NewEntities := newE,
       m_InitializingEntities := [],
       m_Entities := runE ++ initE.map (withState EntityState.running),
       m_DestructibleEntities := destE, m_TeardownEntities := tdE } : World α)
    (fun e he => hwf.stNew e he)
  rw [h2, some_bind_eq]
  have hstRun3 : ∀ e ∈ runE ++ initE.map (withState EntityState.running),
      e.m_State = EntityState.running := by
    intro e he
    rcases List.mem_append.mp he with h | h
    · exact hwf.stRun e h
    · obtain ⟨e0, _, rfl⟩ := List.mem_map.mp h
      rfl
  have hstInit3 : ∀ e ∈ newE.map (withState EntityState.initializing),
      e.m_State = EntityState.initializing := by
    intro e he
    obtain ⟨e0, _, rfl⟩ := List.mem_map.mp he
    rfl
  have hcnt3 : tdE.length ≤ cnt := by
    have := hwf.count
    simp only [World.totalEntities] at this
    omega
  obtain ⟨sys2, hsys2, h3⟩ := processEntityDestruction_eq
    ({ hooks := hooks, sys := sys.forEachComponent hooks.onPostUpdate,
       m_EntityCount := cnt, m_NextUID := nuid, m_NewEntities := [],
       m_InitializingEntities := newE.map (withState EntityState.initializing),
       m_Entities := runE ++ initE.map (withState EntityState.running),
       m_DestructibleEntities := destE, m_TeardownEntities := tdE } : World α)
    ids hids hcnt3
    (fun e he => hwf.infosNz e (by
      simp only [List.append_assoc, List.mem_append]
      exact Or.inr (Or.inr (Or.inr he))))
    hstRun3 hstInit3 (fun e he => absurd he (List.not_mem_nil e))
  rw [h3]
  refine ⟨sys2, hsys2, ?_⟩
  simp

theorem length_filter_not_add (l : List β) (p : β → Bool) :
    (l.filter (fun x => !p x)).length + (l.filter p).length = l.length := by
  induction l with
  | nil => rfl
  | cons x xs ih =>
    by_cases hp : p x <;> simp [hp, List.filter_cons] <;> omega

theorem uidsOf_append (a b : List Entity) : uidsOf (a ++ b) = uidsOf a ++ uidsOf b := by
  simp [uidsOf]

theorem uidsOf_filter_sublist (l : List Entity) (p : Entity → Bool) :
    List.Sublist (uidsOf (l.filter p)) (uidsOf l) :=
  List.Sublist.map Entity.m_Uid (List.filter_sublist l)

theorem mem_uidsOf_filter (l : List Entity) (p : Entity → Bool) (u : Nat)
    (h : u ∈ uidsOf (l.filter p)) : u ∈ uidsOf l :=
  (uidsOf_filter_sublist l p).mem h

theorem mem_uidsOf (l : List Entity) (u : Nat) :
    u ∈ uidsOf l ↔ ∃ e ∈ l, e.m_Uid = u := by
  simp [uidsOf]

theorem infos_withState (e : Entity) (st : EntityState) :
    (withState st e).m_ComponentInfos = e.m_ComponentInfos := rfl

/-- `postUpdate` preserves the world invariant. -/
theorem wf_postUpdate (w : World α) (hwf : WF w) (w' : World α)
    (h : w.postUpdate = some w') : WF w' := by
  obtain ⟨sys2, hsys2, heq⟩ := postUpdate_eq w hwf _ rfl
  rw [heq] at h
  injection h with h
  subst h
  have hmergedUids : uidsOf (w.m_Entities
      ++ w.m_InitializingEntities.map (withState EntityState.running))
      = uidsOf w.m_Entities ++ uidsOf w.m_InitializingEntities := by
    rw [uidsOf_append, uidsOf_map_withState]
  have hpromUids : uidsOf (w.m_NewEntities.map (withState EntityState.initializing))
      = uidsOf w.m_NewEntities := uidsOf_map_withState _ _
  have hsortedMerged : (uidsOf (w.m_Entities
      ++ w.m_InitializingEntities.map (withState EntityState.running))).Pairwise (· < ·) := by
    rw [hmergedUids, List.pairwise_append]
    exact ⟨hwf.sortedRun, hwf.sortedInit, hwf.crossRunInit⟩
  have hmemMerged : ∀ u, u ∈ uidsOf (w.m_Entities
      ++ w.m_InitializingEntities.map (withState EntityState.running)) →
      u ∈ uidsOf w.m_Entities ++ uidsOf w.m_InitializingEntities := by
    intro u hu
    rwa [hmergedUids] at hu
  refine ⟨?_, ?_, ?_, ?_, ?_, ?_, ?_, ?_, ?_, ?_, ?_, ?_, ?_⟩
  · exact List.Pairwise.sublist (uidsOf_filter_sublist _ _) hsortedMerged
  · exact List.Pairwise.sublist (uidsOf_filter_sublist _ _)
      (by rw [hpromUids]; exact hwf.sortedNew)
  · simp [uidsOf]
  · simp only []
    rw [uidsOf_map_withState, uidsOf_append, List.pairwise_append]
    refine ⟨List.Pairwise.sublist (uidsOf_filter_sublist _ _) hsortedMerged,
      List.Pairwise.sublist (uidsOf_filter_sublist _ _)
        (by rw [hpromUids]; exact hwf.sortedNew), ?_⟩
    intro u hu v hv
    have hu2 := hmemMerged u (mem_uidsOf_filter _ _ _ hu)
    have hv2 : v ∈ uidsOf w.m_NewEntities := by
      have := mem_uidsOf_filter _ _ _ hv
      rwa [hpromUids] at this
    exact hwf.crossLiveNew u hu2 v hv2
  · intro u hu v hv
    have hu2 := hmemMerged u (mem_uidsOf_filter _ _ _ hu)
    have hv2 : v ∈ uidsOf w.m_NewEntities := by
      have := mem_uidsOf_filter _ _ _ hv
      rwa [hpromUids] at this
    exact hwf.crossLiveNew u hu2 v hv2
  · intro u hu v hv
    simp [uidsOf] at hv
  · intro u hu
    simp only [World.liveUids, List.mem_append] at hu
    have hbnd := hwf.bound
    simp only [World.liveUids, List.mem_append] at hbnd
    rcases hu with ((h1 | h2) | h3) | h4
    · have := hmemMerged u (mem_uidsOf_filter _ _ _ h1)
      rcases List.mem_append.mp this with hh | hh
      · exact hbnd u (Or.inl (Or.inl (Or.inl hh)))
      · exact hbnd u (Or.inl (Or.inl (Or.inr hh)))
    · have : u ∈ uidsOf w.m_NewEntities := by
        have := mem_uidsOf_filter _ _ _ h2
        rwa [hpromUids] at this
      exact hbnd u (Or.inl (Or.inr this))
    · simp [uidsOf] at h3
    · rw [uidsOf_map_withState, uidsOf_append] at h4
      rcases List.mem_append.mp h4 with hh | hh
      · have := hmemMerged u (mem_uidsOf_filter _ _ _ hh)
        rcases List.mem_append.mp this with hh2 | hh2
        · exact hbnd u (Or.inl (Or.inl (Or.inl hh2)))
        · exact hbnd u (Or.inl (Or.inl (Or.inr hh2)))
      · have : u ∈ uidsOf w.m_NewEntities := by
          have := mem_uidsOf_filter _ _ _ hh
          rwa [hpromUids] at this
        exact hbnd u (Or.inl (Or.inr this))
  · intro e he
    have := List.mem_of_mem_filter he
    rcases List.mem_append.mp this with h | h
    · exact hwf.stRun e h
    · obtain ⟨e0, _, rfl⟩ := List.mem_map.mp h
      rfl
  · intro e he
    have := List.mem_of_mem_filter he
    obtain ⟨e0, _, rfl⟩ := List.mem_map.mp this
    rfl
  · intro e he
    cases he
  · intro e he
    obtain ⟨e0, _, rfl⟩ := List.mem_map.mp he
    rfl
  · intro e he c hc
    have hbase := hwf.infosNz
    simp only [List.append_assoc, List.mem_append] at he hbase
    rcases he with h1 | h2 | h3 | h4
    · have := List.mem_of_mem_filter h1
      rcases List.mem_append.mp this with hh | hh
      · exact hbase e (Or.inl hh) c hc
      · obtain ⟨e0, he0, rfl⟩ := List.mem_map.mp hh
        exact hbase e0 (Or.inr (Or.inl he0)) c hc
    · have := List.mem_of_mem_filter h2
      obtain ⟨e0, he0, rfl⟩ := List.mem_map.mp this
      exact hbase e0 (Or.inr (Or.inr (Or.inl he0))) c hc
    · cases h3
    · obtain ⟨e1, he1, rfl⟩ := List.mem_map.mp h4
      rw [infos_withState] at hc
      rcases List.mem_append.mp he1 with hh | hh
      · have := List.mem_of_mem_filter hh
        rcases List.mem_append.mp this with hh2 | hh2
        · exact hbase e1 (Or.inl hh2) c hc
        · obtain ⟨e0, he0, rfl⟩ := List.mem_map.mp hh2
          exact hbase e0 (Or.inr (Or.inl he0)) c hc
      · have := List.mem_of_mem_filter hh
        obtain ⟨e0, he0, rfl⟩ := List.mem_map.mp this
        exact hbase e0 (Or.inr (Or.inr (Or.inl he0))) c hc
  · simp only [World.totalEntities, List.length_nil, List.length_map, List.length_append]
    have hkept := length_filter_not_add
      (w.m_Entities ++ w.m_InitializingEntities.map (withState EntityState.running))
      (fun e => (dedupAdjacent (sortUids w.m_DestructibleEntities)).contains e.m_Uid)
    have hkeptP := length_filter_not_add
      (w.m_NewEntities.map (withState EntityState.initializing))
      (fun e => (dedupAdjacent (sortUids w.m_DestructibleEntities)).contains e.m_Uid)
    have hc := hwf.count
    simp only [World.totalEntities] at hc
    simp only [List.length_append, List.length_map] at hkept hkeptP
    omega

theorem createEntity_snd (w : World α) : (w.createEntity).2 = w.m_NextUID := rfl

theorem createEntity_fst (w : World α) :
    (w.createEntity).1 = { w with
      m_NextUID := incSizeT w.m_NextUID,
      sys := ((w.sys.createComponent w.hooks.defaultComponent).1).setComponentEntity
        (w.sys.createComponent w.hooks.defaultComponent).2 w.m_NextUID,
      m_NewEntities := w.m_NewEntities ++
        [{ m_Uid := w.m_NextUID, m_State := EntityState.none,
           m_ComponentInfos := [(w.sys.createComponent w.hooks.defaultComponent).2] }],
      m_EntityCount := incSizeT w.m_EntityCount } := rfl

/-- `createEntity` preserves the world invariant as long as neither the uid
counter nor the entity counter is at the `std::size_t` wrap point. -/
theorem wf_createEntity (w : World α) (hwf : WF w)
    (hnuid : w.m_NextUID ≠ sizeTMod - 1) (hcnt : w.m_EntityCount ≠ sizeTMod - 1) :
    WF (w.createEntity).1 := by
  rw [createEntity_fst]
  have hincn : incSizeT w.m_NextUID = w.m_NextUID + 1 := by
    unfold incSizeT
    rw [if_neg hnuid]
  have hincc : incSizeT w.m_EntityCount = w.m_EntityCount + 1 := by
    unfold incSizeT
    rw [if_neg hcnt]
  have hcuid : (w.sys.createComponent w.hooks.defaultComponent).2 ≠ 0 := by
    have := createComponent_id_pos w.sys w.hooks.defaultComponent
    omega
  have hb : ∀ u, (u ∈ uidsOf w.m_Entities ∨ u ∈ uidsOf w.m_InitializingEntities
      ∨ u ∈ uidsOf w.m_NewEntities ∨ u ∈ uidsOf w.m_TeardownEntities) →
      u < w.m_NextUID := by
    intro u hu
    refine hwf.bound u ?_
    simp only [World.liveUids, List.mem_append]
    tauto
  refine ⟨?_, ?_, ?_, ?_, ?_, ?_, ?_, ?_, ?_, ?_, ?_, ?_, ?_⟩
  · exact hwf.sortedRun
  · exact hwf.sortedInit
  · simp only []
    rw [uidsOf_append, List.pairwise_append]
    refine ⟨hwf.sortedNew, by simp [uidsOf], ?_⟩
    intro u hu v hv
    simp only [uidsOf, List.map_cons, List.map_nil, List.mem_singleton] at hv
    subst hv
    exact hb u (Or.inr (Or.inr (Or.inl hu)))
  · exact hwf.sortedTd
  · exact hwf.crossRunInit
  · intro u hu v hv
    simp only [] at hv
    rw [uidsOf_append] at hv
    rcases List.mem_append.mp hv with hold | hnewv
    · exact hwf.crossLiveNew u hu v hold
    · simp only [uidsOf, List.map_cons, List.map_nil, List.mem_singleton] at hnewv
      subst hnewv
      rcases List.mem_append.mp hu with h1 | h2
      · exact hb u (Or.inl h1)
      · exact hb u (Or.inr (Or.inl h2))
  · intro u hu
    simp only [World.liveUids, List.mem_append] at hu
    simp only []
    rw [hincn]
    rcases hu with ((h1 | h2) | h3) | h4
    · have := hb u (Or.inl h1)
      omega
    · have := hb u (Or.inr (Or.inl h2))
      omega
    · rw [uidsOf_append] at h3
      rcases List.mem_append.mp h3 with hold | hnewv
      · have := hb u (Or.inr (Or.inr (Or.inl hold)))
        omega
      · simp only [uidsOf, List.map_cons, List.map_nil, List.mem_singleton] at hnewv
        omega
    · have := hb u (Or.inr (Or.inr (Or.inr h4)))
      omega
  · exact hwf.stRun
  · exact hwf.stInit
  · intro e he
    simp only [] at he
    rcases List.mem_append.mp he with h1 | h2
    · exact hwf.stNew e h1
    · rcases List.mem_singleton.mp h2 with rfl
      rfl
  · exact hwf.stTd
  · intro e he c hc
    have hbase := hwf.infosNz
    simp only [List.append_assoc, List.mem_append] at he hbase
    rcases he with h1 | h2 | h3 | h4 | h5
    · exact hbase e (Or.inl h1) c hc
    · exact hbase e (Or.inr (Or.inl h2)) c hc
    · exact hbase e (Or.inr (Or.inr (Or.inl h3))) c hc
    · rcases List.mem_singleton.mp h4 with rfl
      simp only [List.mem_singleton] at hc
      subst hc
      exact hcuid
    · exact hbase e (Or.inr (Or.inr (Or.inr h5))) c hc
  · simp only [World.totalEntities, List.length_append, List.length_cons, List.length_nil]
    have hc := hwf.count
    simp only [World.totalEntities] at hc
    rw [hincc]
    omega

theorem contains_iff_mem (l : List Nat) (u : Nat) : l.contains u = true ↔ u ∈ l := by
  induction l with
  | nil => simp
  | cons x xs ih =>
    show (u == x || xs.contains u) = true ↔ u ∈ x :: xs
    rw [Bool.or_eq_true, ih, List.mem_cons, Nat.beq_eq_true_eq]

theorem findEntity_in_running (w : World α) (u : Nat) (e : Entity)
    (hs : (uidsOf w.m_Entities).Pairwise (· < ·))
    (he : e ∈ w.m_Entities) (hu : e.m_Uid = u) :
    w.findEntity u = some e := by
  unfold World.findEntity
  rw [findEntityItr_mem _ _ _ hs he hu]

theorem findEntity_in_initializing (w : World α) (u : Nat) (e : Entity)
    (h1 : u ∉ uidsOf w.m_Entities)
    (hs : (uidsOf w.m_InitializingEntities).Pairwise (· < ·))
    (he : e ∈ w.m_InitializingEntities) (hu : e.m_Uid = u) :
    w.findEntity u = some e := by
  unfold World.findEntity
  rw [findEntityItr_not_mem _ _ h1, findEntityItr_mem _ _ _ hs he hu]

theorem findEntity_in_new (w : World α) (u : Nat) (e : Entity)
    (h1 : u ∉ uidsOf w.m_Entities) (h2 : u ∉ uidsOf w.m_InitializingEntities)
    (hs : (uidsOf w.m_NewEntities).Pairwise (· < ·))
    (he : e ∈ w.m_NewEntities) (hu : e.m_Uid = u) :
    w.findEntity u = some e := by
  unfold World.findEntity
  rw [findEntityItr_not_mem _ _ h1, findEntityItr_not_mem _ _ h2,
    findEntityItr_mem _ _ _ hs he hu]

theorem findEntity_in_teardown (w : World α) (u : Nat) (e : Entity)
    (h1 : u ∉ uidsOf w.m_Entities) (h2 : u ∉ uidsOf w.m_InitializingEntities)
    (h3 : u ∉ uidsOf w.m_NewEntities)
    (hs : (uidsOf w.m_TeardownEntities).Pairwise (· < ·))
    (he : e ∈ w.m_TeardownEntities) (hu : e.m_Uid = u) :
    w.findEntity u = some e := by
  unfold World.findEntity
  rw [findEntityItr_not_mem _ _ h1, findEntityItr_not_mem _ _ h2,
    findEntityItr_not_mem _ _ h3, findEntityItr_mem _ _ _ hs he hu]

theorem findEntity_absent (w : World α) (u : Nat)
    (h1 : u ∉ uidsOf w.m_Entities) (h2 : u ∉ uidsOf w.m_InitializingEntities)
    (h3 : u ∉ uidsOf w.m_NewEntities) (h4 : u ∉ uidsOf w.m_TeardownEntities) :
    w.findEntity u = Option.none := by
  unfold World.findEntity
  rw [findEntityItr_not_mem _ _ h1, findEntityItr_not_mem _ _ h2,
    findEntityItr_not_mem _ _ h3, findEntityItr_not_mem _ _ h4]

theorem mem_uidsOf_filterNot (l : List Entity) (ids : List Nat) (u : Nat)
    (h : u ∈ uidsOf (l.filter (fun e => !ids.contains e.m_Uid))) :
    ids.contains u = false := by
  obtain ⟨e, he, hu⟩ := (mem_uidsOf _ _).mp h
  have := (List.mem_filter.mp he).2
  subst hu
  simpa using this

theorem mem_uidsOf_map_withState (l : List Entity) (st : EntityState) (u : Nat) :
    u ∈ uidsOf (l.map (withState st)) ↔ u ∈ uidsOf l := by
  rw [uidsOf_map_withState]

theorem uid_withState (st : EntityState) (e : Entity) :
    (withState st e).m_Uid = e.m_Uid := rfl

theorem entity_error_of_findEntity_none (w : World α) (u : Nat)
    (h : w.findEntity u = Option.none) :
    w.entity u = Except.error "Entity uid not found" := by
  unfold World.entity
  rw [h]

/-! ### Claim C1: destruction grace period -/

/-- C1.  For every entity live in the world (its uid is in one of the three
live queues), `destroyEntityLater(uid)` followed by one `postUpdate` leaves
the entity reachable via `findEntity` in state `teardown`; a second
`postUpdate` makes `findEntity` return null and `entity` raise its
`EntityError`. -/
theorem destroyEntityLater_grace_period (w : World α) (hwf : WF w) (u : Nat)
    (hlive : u ∈ w.liveUids) :
    ∃ w1, (w.destroyEntityLater u).postUpdate = some w1
      ∧ (∃ e, w1.findEntity u = some e ∧ e.m_State = EntityState.teardown)
      ∧ ∃ w2, w1.postUpdate = some w2
        ∧ w2.findEntity u = Option.none
        ∧ ∃ msg, w2.entity u = Except.error msg := by
  have hwfd : WF (w.destroyEntityLater u) :=
    ⟨hwf.sortedRun, hwf.sortedInit, hwf.sortedNew, hwf.sortedTd, hwf.crossRunInit,
     hwf.crossLiveNew, hwf.bound, hwf.stRun, hwf.stInit, hwf.stNew, hwf.stTd,
     hwf.infosNz, hwf.count⟩
  obtain ⟨sys2, hsys2x, heq1⟩ := postUpdate_eq (w.destroyEntityLater u) hwfd
    (dedupAdjacent (sortUids (w.m_DestructibleEntities ++ [u]))) rfl
  have hwf1 := wf_postUpdate (w.destroyEntityLater u) hwfd _ heq1
  have hu_ids :
      (dedupAdjacent (sortUids (w.m_DestructibleEntities ++ [u]))).contains u = true := by
    rw [contains_iff_mem, mem_dedupAdjacent, mem_sortUids]
    simp
  -- the entity with uid u ends up in the new teardown queue
  have hmemTd : ∃ e0, e0 ∈
      (((w.m_Entities ++ w.m_InitializingEntities.map (withState EntityState.running)).filter
          (fun e => (dedupAdjacent (sortUids (w.m_DestructibleEntities ++ [u]))).contains e.m_Uid)
        ++ (w.m_NewEntities.map (withState EntityState.initializing)).filter
          (fun e => (dedupAdjacent (sortUids (w.m_DestructibleEntities ++ [u]))).contains e.m_Uid)))
      ∧ e0.m_Uid = u := by
    simp only [World.liveUids, List.mem_append] at hlive
    rcases hlive with (h1 | h2) | h3
    · obtain ⟨e0, he0, hu0⟩ := (mem_uidsOf _ _).mp h1
      refine ⟨e0, List.mem_append_left _ (List.mem_filter.mpr
        ⟨List.mem_append_left _ he0, by rw [hu0]; exact hu_ids⟩), hu0⟩
    · obtain ⟨e0, he0, hu0⟩ := (mem_uidsOf _ _).mp h2
      refine ⟨withState EntityState.running e0, List.mem_append_left _ (List.mem_filter.mpr
        ⟨List.mem_append_right _ (List.mem_map_of_mem _ he0), by
          rw [uid_withState, hu0]; exact hu_ids⟩), by rw [uid_withState, hu0]⟩
    · obtain ⟨e0, he0, hu0⟩ := (mem_uidsOf _ _).mp h3
      refine ⟨withState EntityState.initializing e0, List.mem_append_right _ (List.mem_filter.mpr
        ⟨List.mem_map_of_mem _ he0, by
          rw [uid_withState, hu0]; exact hu_ids⟩), by rw [uid_withState, hu0]⟩
  obtain ⟨e0, he0, hu0⟩ := hmemTd
  -- u is kept out of the filtered live queues
  have hnotRun1 : u ∉ uidsOf
      ((w.m_Entities ++ w.m_InitializingEntities.map (withState EntityState.running)).filter
        (fun e => !(dedupAdjacent (sortUids (w.m_DestructibleEntities ++ [u]))).contains e.m_Uid)) := by
    intro hmem
    have := mem_uidsOf_filterNot _ _ _ hmem
    rw [hu_ids] at this
    cases this
  have hnotInit1 : u ∉ uidsOf
      ((w.m_NewEntities.map (withState EntityState.initializing)).filter
        (fun e => !(dedupAdjacent (sortUids (w.m_DestructibleEntities ++ [u]))).contains e.m_Uid)) := by
    intro hmem
    have := mem_uidsOf_filterNot _ _ _ hmem
    rw [hu_ids] at this
    cases this
  refine ⟨_, heq1, ⟨withState EntityState.teardown e0, ?_, rfl⟩, ?_⟩
  · exact findEntity_in_teardown _ u (withState EntityState.teardown e0)
      hnotRun1 hnotInit1 (by simp [uidsOf]) hwf1.sortedTd
      (List.mem_map_of_mem _ he0) (by rw [uid_withState, hu0])
  · obtain ⟨sys3, hsys3x, heq2⟩ := postUpdate_eq _ hwf1 [] rfl
    -- u does not occur in any queue of the second result
    have hnotE2 : u ∉ uidsOf (((
        (w.m_Entities ++ w.m_InitializingEntities.map (withState EntityState.running)).filter
          (fun e => !(dedupAdjacent (sortUids (w.m_DestructibleEntities ++ [u]))).contains e.m_Uid))
        ++ (((w.m_NewEntities.map (withState EntityState.initializing)).filter
          (fun e => !(dedupAdjacent (sortUids (w.m_DestructibleEntities ++ [u]))).contains e.m_Uid)).map
            (withState EntityState.running))).filter
        (fun e => !(List.nil.contains e.m_Uid))) := by
      intro hmem
      have hbase := (uidsOf_filter_sublist _ _).mem hmem
      rw [uidsOf_append, uidsOf_map_withState] at hbase
      rcases List.mem_append.mp hbase with hh | hh
      · exact hnotRun1 hh
      · exact hnotInit1 hh
    have hnotI2 : u ∉ uidsOf ((List.map (withState EntityState.initializing)
        (List.nil : List Entity)).filter (fun e => !(List.nil.contains e.m_Uid))) := by
      simp [uidsOf]
    have hnotT2 : u ∉ uidsOf ((((
        (w.m_Entities ++ w.m_InitializingEntities.map (withState EntityState.running)).filter
          (fun e => !(dedupAdjacent (sortUids (w.m_DestructibleEntities ++ [u]))).contains e.m_Uid))
        ++ (((w.m_NewEntities.map (withState EntityState.initializing)).filter
          (fun e => !(dedupAdjacent (sortUids (w.m_DestructibleEntities ++ [u]))).contains e.m_Uid)).map
            (withState EntityState.running))).filter
        (fun e => (List.nil.contains e.m_Uid))
        ++ ((List.map (withState EntityState.initializing) (List.nil : List Entity)).filter
          (fun e => (List.nil.contains e.m_Uid)))).map (withState EntityState.teardown)) := by
      intro hmem
      rw [uidsOf_map_withState, uidsOf_append] at hmem
      rcases List.mem_append.mp hmem with hh | hh
      · have hbase := (uidsOf_filter_sublist _ _).mem hh
        rw [uidsOf_append, uidsOf_map_withState] at hbase
        rcases List.mem_append.mp hbase with hh2 | hh2
        · exact hnotRun1 hh2
        · exact hnotInit1 hh2
      · simp [uidsOf] at hh
    refine ⟨_, heq2, ?_, ?_⟩
    · exact findEntity_absent _ u hnotE2 hnotI2 (by simp [uidsOf]) hnotT2
    · exact ⟨"Entity uid not found", entity_error_of_findEntity_none _ u
        (findEntity_absent _ u hnotE2 hnotI2 (by simp [uidsOf]) hnotT2)⟩

/-- A system whose hooks are the inherited no-ops (used by lifecycle
witnesses); the component payload is a plain `Int` defaulting to 0. -/
def idleHooks : SystemHooks Int := { defaultComponent := 0 }

/-- A small well-formed world: one running entity (uid 1) owning slot 1. -/
def worldC1 : World Int :=
  { hooks := idleHooks,
    sys := { m_ComponentCount := 1, m_Components := [some { entity := some 1, component := 0 }] },
    m_EntityCount := 1,
    m_NextUID := 2,
    m_Entities := [{ m_Uid := 1, m_State := EntityState.running, m_ComponentInfos := [1] }] }

theorem wf_worldC1 : WF worldC1 := by
  refine ⟨?_, ?_, ?_, ?_, ?_, ?_, ?_, ?_, ?_, ?_, ?_, ?_, ?_⟩ <;> decide

/-- C1 witness: the grace-period theorem at `worldC1` and uid 1. -/
theorem destroyEntityLater_grace_period_witness :
    WF worldC1 ∧ 1 ∈ worldC1.liveUids ∧
    (∃ w1, (worldC1.destroyEntityLater 1).postUpdate = some w1
      ∧ (∃ e, w1.findEntity 1 = some e ∧ e.m_State = EntityState.teardown)
      ∧ ∃ w2, w1.postUpdate = some w2
        ∧ w2.findEntity 1 = Option.none
        ∧ ∃ msg, w2.entity 1 = Except.error msg) :=
  ⟨wf_worldC1, by decide,
    destroyEntityLater_grace_period worldC1 wf_worldC1 1 (by decide)⟩

/-! ### Claim C10: destruction requests cover the new and initializing queues -/

/-- C10.  A drained destruction request removes an entity even when it is
still in the new or initializing queue and never reached `running`: one
`postUpdate` moves it to the teardown queue in state `teardown`, and the next
`postUpdate` destructs it (it is no longer findable). -/
theorem destruction_covers_new_and_initializing (w : World α) (hwf : WF w) (u : Nat)
    (hreq : u ∈ w.m_DestructibleEntities)
    (hqueue : u ∈ uidsOf w.m_NewEntities ∨ u ∈ uidsOf w.m_InitializingEntities) :
    ∃ w1, w.postUpdate = some w1
      ∧ (∃ e, e ∈ w1.m_TeardownEntities ∧ e.m_Uid = u ∧ e.m_State = EntityState.teardown)
      ∧ ∃ w2, w1.postUpdate = some w2 ∧ w2.findEntity u = Option.none := by
  obtain ⟨sys2, hsys2x, heq1⟩ := postUpdate_eq w hwf
    (dedupAdjacent (sortUids w.m_DestructibleEntities)) rfl
  have hwf1 := wf_postUpdate w hwf _ heq1
  have hu_ids :
      (dedupAdjacent (sortUids w.m_DestructibleEntities)).contains u = true := by
    rw [contains_iff_mem, mem_dedupAdjacent, mem_sortUids]
    exact hreq
  have hmemTd : ∃ e0, e0 ∈
      (((w.m_Entities ++ w.m_InitializingEntities.map (withState EntityState.running)).filter
          (fun e => (dedupAdjacent (sortUids w.m_DestructibleEntities)).contains e.m_Uid)
        ++ (w.m_NewEntities.map (withState EntityState.initializing)).filter
          (fun e => (dedupAdjacent (sortUids w.m_DestructibleEntities)).contains e.m_Uid)))
      ∧ e0.m_Uid = u := by
    rcases hqueue with h3 | h2
    · obtain ⟨e0, he0, hu0⟩ := (mem_uidsOf _ _).mp h3
      refine ⟨withState EntityState.initializing e0, List.mem_append_right _ (List.mem_filter.mpr
        ⟨List.mem_map_of_mem _ he0, by
          rw [uid_withState, hu0]; exact hu_ids⟩), by rw [uid_withState, hu0]⟩
    · obtain ⟨e0, he0, hu0⟩ := (mem_uidsOf _ _).mp h2
      refine ⟨withState EntityState.running e0, List.mem_append_left _ (List.mem_filter.mpr
        ⟨List.mem_append_right _ (List.mem_map_of_mem _ he0), by
          rw [uid_withState, hu0]; exact hu_ids⟩), by rw [uid_withState, hu0]⟩
  obtain ⟨e0, he0, hu0⟩ := hmemTd
  have hnotRun1 : u ∉ uidsOf
      ((w.m_Entities ++ w.m_InitializingEntities.map (withState EntityState.running)).filter
        (fun e => !(dedupAdjacent (sortUids w.m_DestructibleEntities)).contains e.m_Uid)) := by
    intro hmem
    have := mem_uidsOf_filterNot _ _ _ hmem
    rw [hu_ids] at this
    cases this
  have hnotInit1 : u ∉ uidsOf
      ((w.m_NewEntities.map (withState EntityState.initializing)).filter
        (fun e => !(dedupAdjacent (sortUids w.m_DestructibleEntities)).contains e.m_Uid)) := by
    intro hmem
    have := mem_uidsOf_filterNot _ _ _ hmem
    rw [hu_ids] at this
    cases this
  refine ⟨_, heq1, ⟨withState EntityState.teardown e0,
    List.mem_map_of_mem _ he0, by rw [uid_withState, hu0], rfl⟩, ?_⟩
  obtain ⟨sys3, hsys3x, heq2⟩ := postUpdate_eq _ hwf1 [] rfl
  have hnotE2 : u ∉ uidsOf (((
      (w.m_Entities ++ w.m_InitializingEntities.map (withState EntityState.running)).filter
        (fun e => !(dedupAdjacent (sortUids w.m_DestructibleEntities)).contains e.m_Uid))
      ++ (((w.m_NewEntities.map (withState EntityState.initializing)).filter
        (fun e => !(dedupAdjacent (sortUids w.m_DestructibleEntities)).contains e.m_Uid)).map
          (withState EntityState.running))).filter
      (fun e => !(List.nil.contains e.m_Uid))) := by
    intro hmem
    have hbase := (uidsOf_filter_sublist _ _).mem hmem
    rw [uidsOf_append, uidsOf_map_withState] at hbase
    rcases List.mem_append.mp hbase with hh | hh
    · exact hnotRun1 hh
    · exact hnotInit1 hh
  have hnotT2 : u ∉ uidsOf ((((
      (w.m_Entities ++ w.m_InitializingEntities.map (withState EntityState.running)).filter
        (fun e => !(dedupAdjacent (sortUids w.m_DestructibleEntities)).contains e.m_Uid))
      ++ (((w.m_NewEntities.map (withState EntityState.initializing)).filter
        (fun e => !(dedupAdjacent (sortUids w.m_DestructibleEntities)).contains e.m_Uid)).map
          (withState EntityState.running))).filter
      (fun e => (List.nil.contains e.m_Uid))
      ++ ((List.map (withState EntityState.initializing) (List.nil : List Entity)).filter
        (fun e => (List.nil.contains e.m_Uid)))).map (withState EntityState.teardown)) := by
    intro hmem
    rw [uidsOf_map_withState, uidsOf_append] at hmem
    rcases List.mem_append.mp hmem with hh | hh
    · have hbase := (uidsOf_filter_sublist _ _).mem hh
      rw [uidsOf_append, uidsOf_map_withState] at hbase
      rcases List.mem_append.mp hbase with hh2 | hh2
      · exact hnotRun1 hh2
      · exact hnotInit1 hh2
    · simp [uidsOf] at hh
  refine ⟨_, heq2, ?_⟩
  exact findEntity_absent _ u hnotE2 (by simp [uidsOf]) (by simp [uidsOf]) hnotT2

/-- A well-formed world for the C10 witness: one entity still in the new
queue (uid 1) and a pending destruction request for it. -/
def worldC10 : World Int :=
  { hooks := idleHooks,
    sys := { m_ComponentCount := 1, m_Components := [some { entity := some 1, component := 0 }] },
    m_EntityCount := 1,
    m_NextUID := 2,
    m_NewEntities := [{ m_Uid := 1, m_State := EntityState.none, m_ComponentInfos := [1] }],
    m_DestructibleEntities := [1] }

theorem wf_worldC10 : WF worldC10 := by
  refine ⟨?_, ?_, ?_, ?_, ?_, ?_, ?_, ?_, ?_, ?_, ?_, ?_, ?_⟩ <;> decide

/-- C10 witness: the same-cycle create/destroy schedule at `worldC10`. -/
theorem destruction_covers_new_and_initializing_witness :
    WF worldC10 ∧ 1 ∈ worldC10.m_DestructibleEntities
    ∧ (1 ∈ uidsOf worldC10.m_NewEntities ∨ 1 ∈ uidsOf worldC10.m_InitializingEntities)
    ∧ (∃ w1, worldC10.postUpdate = some w1
      ∧ (∃ e, e ∈ w1.m_TeardownEntities ∧ e.m_Uid = 1 ∧ e.m_State = EntityState.teardown)
      ∧ ∃ w2, w1.postUpdate = some w2 ∧ w2.findEntity 1 = Option.none) :=
  ⟨wf_worldC10, by decide, by decide,
    destruction_covers_new_and_initializing worldC10 wf_worldC10 1 (by decide) (by decide)⟩

/-! ### Claim C9: destruction request reconciliation -/

theorem mem_uidsOf_filter_contains (l : List Entity) (ids : List Nat) (u : Nat) :
    u ∈ uidsOf (l.filter (fun e => ids.contains e.m_Uid))
      ↔ u ∈ uidsOf l ∧ ids.contains u = true := by
  constructor
  · intro h
    obtain ⟨e, he, hu⟩ := (mem_uidsOf _ _).mp h
    obtain ⟨hel, hc⟩ := List.mem_filter.mp he
    exact ⟨(mem_uidsOf _ _).mpr ⟨e, hel, hu⟩, hu ▸ hc⟩
  · rintro ⟨h, hc⟩
    obtain ⟨e, he, hu⟩ := (mem_uidsOf _ _).mp h
    exact (mem_uidsOf _ _).mpr ⟨e, List.mem_filter.mpr ⟨he, hu.symm ▸ hc⟩, hu⟩

/-- Two strictly sorted lists with the same members are equal. -/
theorem strictSorted_ext (l1 : List Nat) : ∀ (l2 : List Nat),
    l1.Pairwise (· < ·) → l2.Pairwise (· < ·) → (∀ x, x ∈ l1 ↔ x ∈ l2) → l1 = l2 := by
  induction l1 with
  | nil =>
    intro l2 _ _ hmem
    cases l2 with
    | nil => rfl
    | cons y ys => exact absurd ((hmem y).mpr (List.mem_cons_self y ys)) (by simp)
  | cons x xs ih =>
    intro l2 h1 h2 hmem
    cases l2 with
    | nil => exact absurd ((hmem x).mp (List.mem_cons_self x xs)) (by simp)
    | cons y ys =>
      obtain ⟨hx1, hx2⟩ := List.pairwise_cons.mp h1
      obtain ⟨hy1, hy2⟩ := List.pairwise_cons.mp h2
      have hxy : x = y := by
        rcases List.mem_cons.mp ((hmem x).mp (List.mem_cons_self x xs)) with h | h
        · exact h
        · rcases List.mem_cons.mp ((hmem y).mpr (List.mem_cons_self y ys)) with h' | h'
          · exact h'.symm
          · exact absurd (Nat.lt_trans (hy1 x h) (hx1 y h')) (Nat.lt_irrefl y)
      subst hxy
      have htl : ∀ z, z ∈ xs ↔ z ∈ ys := by
        intro z
        constructor
        · intro hz
          rcases List.mem_cons.mp ((hmem z).mp (List.mem_cons_of_mem x hz)) with h | h
          · exact absurd (h ▸ hx1 z hz) (Nat.lt_irrefl x)
          · exact h
        · intro hz
          rcases List.mem_cons.mp ((hmem z).mpr (List.mem_cons_of_mem x hz)) with h | h
          · exact absurd (h ▸ hy1 z hz) (Nat.lt_irrefl x)
          · exact h
      rw [ih ys hx2 hy2 htl]

/-- C9.  Destruction requests are reconciled as a set intersection with the
live entities: after one `postUpdate` the teardown queue holds exactly the
uids that were both requested and live (duplicate and unknown uids are
silently ignored); and queueing the same uid twice in one cycle produces
exactly the same `postUpdate` result as queueing it once. -/
theorem destroyEntityLater_reconciliation (w : World α) (hwf : WF w) :
    (∃ w1, w.postUpdate = some w1
      ∧ ∀ v, v ∈ uidsOf w1.m_TeardownEntities
          ↔ v ∈ w.liveUids ∧ v ∈ w.m_DestructibleEntities)
    ∧ ∀ u, ((w.destroyEntityLater u).destroyEntityLater u).postUpdate
        = (w.destroyEntityLater u).postUpdate := by
  constructor
  · obtain ⟨sys2, hsys2, heq1⟩ := postUpdate_eq w hwf
      (dedupAdjacent (sortUids w.m_DestructibleEntities)) rfl
    refine ⟨_, heq1, ?_⟩
    intro v
    show v ∈ uidsOf ((((w.m_Entities
        ++ w.m_InitializingEntities.map (withState EntityState.running)).filter
          (fun e => (dedupAdjacent (sortUids w.m_DestructibleEntities)).contains e.m_Uid)
        ++ (w.m_NewEntities.map (withState EntityState.initializing)).filter
          (fun e => (dedupAdjacent (sortUids w.m_DestructibleEntities)).contains e.m_Uid)).map
            (withState EntityState.teardown)))
      ↔ v ∈ w.liveUids ∧ v ∈ w.m_DestructibleEntities
    rw [uidsOf_map_withState, uidsOf_append, List.mem_append,
        mem_uidsOf_filter_contains, mem_uidsOf_filter_contains,
        uidsOf_append, uidsOf_map_withState, uidsOf_map_withState,
        List.mem_append, contains_iff_mem, mem_dedupAdjacent, mem_sortUids]
    simp only [World.liveUids, List.mem_append]
    constructor
    · rintro (⟨h | h, hc⟩ | ⟨h, hc⟩)
      · exact ⟨Or.inl (Or.inl h), hc⟩
      · exact ⟨Or.inl (Or.inr h), hc⟩
      · exact ⟨Or.inr h, hc⟩
    · rintro ⟨(h | h) | h, hc⟩
      · exact Or.inl ⟨Or.inl h, hc⟩
      · exact Or.inl ⟨Or.inr h, hc⟩
      · exact Or.inr ⟨h, hc⟩
  · intro u
    have hwfA : WF (w.destroyEntityLater u) :=
      ⟨hwf.sortedRun, hwf.sortedInit, hwf.sortedNew, hwf.sortedTd, hwf.crossRunInit,
       hwf.crossLiveNew, hwf.bound, hwf.stRun, hwf.stInit, hwf.stNew, hwf.stTd,
       hwf.infosNz, hwf.count⟩
    have hwfB : WF ((w.destroyEntityLater u).destroyEntityLater u) :=
      ⟨hwfA.sortedRun, hwfA.sortedInit, hwfA.sortedNew, hwfA.sortedTd, hwfA.crossRunInit,
       hwfA.crossLiveNew, hwfA.bound, hwfA.stRun, hwfA.stInit, hwfA.stNew, hwfA.stTd,
       hwfA.infosNz, hwfA.count⟩
    have hids : dedupAdjacent (sortUids (w.m_DestructibleEntities ++ [u]))
        = dedupAdjacent (sortUids ((w.m_DestructibleEntities ++ [u]) ++ [u])) := by
      refine strictSorted_ext _ _
        (dedupAdjacent_strict _ (sortUids_sorted _))
        (dedupAdjacent_strict _ (sortUids_sorted _)) ?_
      intro x
      rw [mem_dedupAdjacent, mem_sortUids, mem_dedupAdjacent, mem_sortUids]
      simp [List.mem_append]
    obtain ⟨sA, hsA, heA⟩ := postUpdate_eq (w.destroyEntityLater u) hwfA
      (dedupAdjacent (sortUids (w.m_DestructibleEntities ++ [u]))) rfl
    obtain ⟨sB, hsB, heB⟩ := postUpdate_eq ((w.destroyEntityLater u).destroyEntityLater u) hwfB
      (dedupAdjacent (sortUids (w.m_DestructibleEntities ++ [u]))) hids
    have hss : sA = sB := Option.some.inj (hsA.symm.trans hsB)
    subst hss
    exact heB.trans heA.symm

/-- A well-formed world for the C9 witness: one running entity (uid 1) and
destruction requests for uid 1 (live) and uid 9 (unknown). -/
def worldC9 : World Int :=
  { hooks := idleHooks,
    sys := { m_ComponentCount := 1, m_Components := [some { entity := some 1, component := 0 }] },
    m_EntityCount := 1,
    m_NextUID := 2,
    m_Entities := [{ m_Uid := 1, m_State := EntityState.running, m_ComponentInfos := [1] }],
    m_DestructibleEntities := [1, 9] }

theorem wf_worldC9 : WF worldC9 := by
  refine ⟨?_, ?_, ?_, ?_, ?_, ?_, ?_, ?_, ?_, ?_, ?_, ?_, ?_⟩ <;> decide

/-- C9 witness: reconciliation at `worldC9`. -/
theorem destroyEntityLater_reconciliation_witness :
    WF worldC9 ∧
    ((∃ w1, worldC9.postUpdate = some w1
      ∧ ∀ v, v ∈ uidsOf w1.m_TeardownEntities
          ↔ v ∈ worldC9.liveUids ∧ v ∈ worldC9.m_DestructibleEntities)
    ∧ ∀ u, ((worldC9.destroyEntityLater u).destroyEntityLater u).postUpdate
        = (worldC9.destroyEntityLater u).postUpdate) :=
  ⟨wf_worldC9, destroyEntityLater_reconciliation worldC9 wf_worldC9⟩

/-! ### Claim C3: lifecycle quarantine -/

/-- C3.  An entity returned by `createEntity` (provided neither counter is at
the `size_t` wrap point and no destruction request already names the fresh
uid) is in state `none` and findable immediately; after one `postUpdate` it
is findable in state `initializing`; after a second `postUpdate` it is
findable in state `running` — same uid and same component info throughout. -/
theorem createEntity_lifecycle_quarantine (w : World α) (hwf : WF w)
    (hnuid : w.m_NextUID ≠ sizeTMod - 1) (hcnt : w.m_EntityCount ≠ sizeTMod - 1)
    (hnd : w.m_NextUID ∉ w.m_DestructibleEntities) :
    ∃ cuid,
      (w.createEntity).1.findEntity (w.createEntity).2
        = some { m_Uid := (w.createEntity).2, m_State := EntityState.none,
                 m_ComponentInfos := [cuid] }
      ∧ ∃ w1, (w.createEntity).1.postUpdate = some w1
        ∧ w1.findEntity (w.createEntity).2
          = some { m_Uid := (w.createEntity).2, m_State := EntityState.initializing,
                   m_ComponentInfos := [cuid] }
        ∧ ∃ w2, w1.postUpdate = some w2
          ∧ w2.findEntity (w.createEntity).2
            = some { m_Uid := (w.createEntity).2, m_State := EntityState.running,
                     m_ComponentInfos := [cuid] } := by
  have hwf0 : WF (w.createEntity).1 := wf_createEntity w hwf hnuid hcnt
  have hlt : ∀ v, (v ∈ uidsOf w.m_Entities ∨ v ∈ uidsOf w.m_InitializingEntities
      ∨ v ∈ uidsOf w.m_NewEntities ∨ v ∈ uidsOf w.m_TeardownEntities) →
      v < w.m_NextUID := by
    intro v hv
    refine hwf.bound v ?_
    simp only [World.liveUids, List.mem_append]
    tauto
  have hucontains : (dedupAdjacent (sortUids w.m_DestructibleEntities)).contains
      w.m_NextUID = false := by
    cases hc : (dedupAdjacent (sortUids w.m_DestructibleEntities)).contains w.m_NextUID
    · rfl
    · exact absurd ((mem_sortUids _ _).mp ((mem_dedupAdjacent _ _).mp
        ((contains_iff_mem _ _).mp hc))) hnd
  refine ⟨(w.sys.createComponent w.hooks.defaultComponent).2, ?_, ?_⟩
  · -- stage 0: the fresh entity sits in the new queue, state `none`
    refine findEntity_in_new _ _ _ ?_ ?_ ?_ ?_ rfl
    · intro h
      exact absurd (hlt _ (Or.inl h)) (Nat.lt_irrefl _)
    · intro h
      exact absurd (hlt _ (Or.inr (Or.inl h))) (Nat.lt_irrefl _)
    · show (uidsOf (w.m_NewEntities ++ [_])).Pairwise (· < ·)
      rw [uidsOf_append]
      refine List.pairwise_append.mpr ⟨hwf.sortedNew, by simp [uidsOf], ?_⟩
      intro a ha b hb
      have hb' : b = w.m_NextUID := by
        simpa [uidsOf] using hb
      rw [hb']
      exact hlt a (Or.inr (Or.inr (Or.inl ha)))
    · exact List.mem_append_right _ (List.mem_cons_self _ _)
  · obtain ⟨sys2, hsys2, heq1⟩ := postUpdate_eq (w.createEntity).1 hwf0
      (dedupAdjacent (sortUids w.m_DestructibleEntities)) rfl
    have hwf1 := wf_postUpdate (w.createEntity).1 hwf0 _ heq1
    have hmem1 : withState EntityState.initializing
        { m_Uid := w.m_NextUID, m_State := EntityState.none,
          m_ComponentInfos := [(w.sys.createComponent w.hooks.defaultComponent).2] } ∈
        ((((w.createEntity).1.m_NewEntities).map
          (withState EntityState.initializing)).filter
          (fun e => !(dedupAdjacent (sortUids w.m_DestructibleEntities)).contains e.m_Uid)) := by
      refine List.mem_filter.mpr ⟨List.mem_map_of_mem _
        (List.mem_append_right _ (List.mem_cons_self _ _)), ?_⟩
      show (!(dedupAdjacent (sortUids w.m_DestructibleEntities)).contains w.m_NextUID) = true
      rw [hucontains]
      rfl
    refine ⟨_, heq1, ?_, ?_⟩
    · -- stage 1: after one postUpdate the entity is initializing
      refine findEntity_in_initializing _ _ _ ?_ hwf1.sortedInit hmem1 rfl
      intro h
      have hbase := (uidsOf_filter_sublist _ _).mem h
      rw [uidsOf_append, uidsOf_map_withState] at hbase
      rcases List.mem_append.mp hbase with hh | hh
      · exact absurd (hlt _ (Or.inl hh)) (Nat.lt_irrefl _)
      · exact absurd (hlt _ (Or.inr (Or.inl hh))) (Nat.lt_irrefl _)
    · obtain ⟨sys3, hsys3, heq2⟩ := postUpdate_eq _ hwf1 [] rfl
      have hwf2 := wf_postUpdate _ hwf1 _ heq2
      refine ⟨_, heq2, ?_⟩
      -- stage 2: after a second postUpdate the entity is running
      refine findEntity_in_running _ _ _ hwf2.sortedRun ?_ rfl
      refine List.mem_filter.mpr ⟨List.mem_append_right _ (List.mem_map_of_mem _ hmem1), rfl⟩

/-- A well-formed starting world for the C3 witness: the freshly initialized
empty world. -/
def worldC3 : World Int := World.init idleHooks

theorem wf_worldC3 : WF worldC3 := by
  refine ⟨?_, ?_, ?_, ?_, ?_, ?_, ?_, ?_, ?_, ?_, ?_, ?_, ?_⟩ <;> decide

/-- C3 witness: the quarantine lifecycle run from the empty world. -/
theorem createEntity_lifecycle_quarantine_witness :
    WF worldC3 ∧ worldC3.m_NextUID ≠ sizeTMod - 1 ∧ worldC3.m_EntityCount ≠ sizeTMod - 1
    ∧ worldC3.m_NextUID ∉ worldC3.m_DestructibleEntities
    ∧ (∃ cuid,
      (worldC3.createEntity).1.findEntity (worldC3.createEntity).2
        = some { m_Uid := (worldC3.createEntity).2, m_State := EntityState.none,
                 m_ComponentInfos := [cuid] }
      ∧ ∃ w1, (worldC3.createEntity).1.postUpdate = some w1
        ∧ w1.findEntity (worldC3.createEntity).2
          = some { m_Uid := (worldC3.createEntity).2, m_State := EntityState.initializing,
                   m_ComponentInfos := [cuid] }
        ∧ ∃ w2, w1.postUpdate = some w2
          ∧ w2.findEntity (worldC3.createEntity).2
            = some { m_Uid := (worldC3.createEntity).2, m_State := EntityState.running,
                     m_ComponentInfos := [cuid] }) :=
  ⟨wf_worldC3, by decide, by decide, by decide,
    createEntity_lifecycle_quarantine worldC3 wf_worldC3 (by decide) (by decide) (by decide)⟩

/-! ### Claim C7: state transitions strictly increase, uid is immutable,
one notification per owned component -/

/-- C7.  `Entity::changeState` fails its assertion (modelled as
`Option.none`) exactly when the requested state is not strictly greater in
the order none < initializing < running < teardown; a successful transition
keeps the uid and the component infos unchanged, sets the new state, and
emits exactly one `notifyStateChanged` per owned component info, in storage
order (the returned trace). -/
theorem changeState_invariants (e : Entity) (st : EntityState) :
    (e.changeState st = Option.none ↔ ¬ e.m_State.toCInt < st.toCInt)
    ∧ ∀ e' trace, e.changeState st = some (e', trace) →
        e.m_State.toCInt < st.toCInt
        ∧ e'.m_Uid = e.m_Uid ∧ e'.m_State = st
        ∧ e'.m_ComponentInfos = e.m_ComponentInfos
        ∧ trace = e.m_ComponentInfos := by
  unfold Entity.changeState
  by_cases h : e.m_State.toCInt < st.toCInt
  · rw [if_pos h]
    refine ⟨⟨fun hc => Option.noConfusion hc, fun hc => absurd h hc⟩, ?_⟩
    intro e' trace hc
    obtain ⟨he', htrace⟩ := Prod.mk.injEq .. ▸ Option.some.inj hc
    exact ⟨h, he' ▸ rfl, he' ▸ rfl, he' ▸ rfl, htrace.symm⟩
  · rw [if_neg h]
    exact ⟨⟨fun _ => h, fun _ => rfl⟩, fun e' trace hc => Option.noConfusion hc⟩

/-- Concrete entity for the C7 witness. -/
def entC7 : Entity :=
  { m_Uid := 5, m_State := EntityState.initializing, m_ComponentInfos := [1, 2] }

/-- C7 witness: a concrete successful transition and a concrete rejected one. -/
theorem changeState_invariants_witness :
    (entC7.m_State.toCInt < EntityState.teardown.toCInt
      ∧ ({ m_Uid := 5, m_State := EntityState.teardown, m_ComponentInfos := [1, 2] } : Entity).m_Uid
          = entC7.m_Uid
      ∧ ({ m_Uid := 5, m_State := EntityState.teardown, m_ComponentInfos := [1, 2] } : Entity).m_State
          = EntityState.teardown
      ∧ ({ m_Uid := 5, m_State := EntityState.teardown, m_ComponentInfos := [1, 2] } : Entity).m_ComponentInfos
          = entC7.m_ComponentInfos
      ∧ [1, 2] = entC7.m_ComponentInfos)
    ∧ entC7.changeState EntityState.none = Option.none :=
  ⟨(changeState_invariants entC7 EntityState.teardown).2
      { m_Uid := 5, m_State := EntityState.teardown, m_ComponentInfos := [1, 2] } [1, 2] (by decide),
   (changeState_invariants entC7 EntityState.none).1.mpr (by decide)⟩

/-! ### Claim C8: the Counter system scenario -/

/-- The Counter test system (WorldTest): `preUpdate` adds 1, `update` adds 2,
`postUpdate` adds 4 to every active component; components start at 0. -/
def counterHooks : SystemHooks Int :=
  { onPreUpdate := fun v => v + 1,
    onUpdate := fun v => v + 2,
    onPostUpdate := fun v => v + 4,
    defaultComponent := 0 }

/-- One frame: `preUpdate(); update(delta); postUpdate();`. -/
def counterStep (w : World Int) : Option (World Int) :=
  ((w.preUpdate).update).postUpdate

/-- C8.  Starting from an empty world with the Counter system and one entity
created with a Counter component: after one frame the component's value is 7
(and the entity is initializing); after `destroyEntityLater(uid)` and one
more frame the value is 14 and the entity's state is `teardown` — all three
hooks ran once more before removal. -/
theorem counter_system_scenario :
    (counterStep ((World.init counterHooks).createEntity).1).map
        (fun w2 => (w2.sys.findComponent 1,
          (w2.findEntity ((World.init counterHooks).createEntity).2).map Entity.m_State))
      = some (some 7, some EntityState.initializing)
    ∧ ((counterStep ((World.init counterHooks).createEntity).1).bind
        (fun w2 => counterStep (w2.destroyEntityLater ((World.init counterHooks).createEntity).2))).map
        (fun w3 => (w3.sys.findComponent 1,
          (w3.findEntity ((World.init counterHooks).createEntity).2).map Entity.m_State))
      = some (some 14, some EntityState.teardown) := by
  constructor <;> rfl

/-! ### Claim C6: uid monotonicity across a whole world lifetime -/

theorem processNewEntities_nextUID (w w2 : World α)
    (h : w.processNewEntities = some w2) : w2.m_NextUID = w.m_NextUID := by
  unfold World.processNewEntities at h
  cases hc : changeStateAll w.m_NewEntities EntityState.initializing with
  | none => rw [hc, Option.map_none'] at h; cases h
  | some inits =>
    rw [hc, Option.map_some'] at h
    obtain rfl := (Option.some.inj h).symm
    rfl

theorem processInitializingEntities_nextUID (w w2 : World α)
    (h : w.processInitializingEntities = some w2) : w2.m_NextUID = w.m_NextUID := by
  unfold World.processInitializingEntities at h
  by_cases he : w.m_InitializingEntities.isEmpty
  · rw [if_pos he] at h
    obtain rfl := (Option.some.inj h).symm
    rfl
  · rw [if_neg he] at h
    cases hc : changeStateAll w.m_InitializingEntities EntityState.running with
    | none => rw [hc, Option.map_none'] at h; cases h
    | some run =>
      rw [hc, Option.map_some'] at h
      obtain rfl := (Option.some.inj h).symm
      rfl

theorem processEntityDestruction_nextUID (w w2 : World α)
    (h : w.processEntityDestruction = some w2) : w2.m_NextUID = w.m_NextUID := by
  unfold World.processEntityDestruction at h
  by_cases hle : w.m_TeardownEntities.length ≤ w.m_EntityCount
  · rw [if_pos hle] at h
    cases hs : w.m_TeardownEntities.foldlM Entity.destructor w.sys with
    | none => rw [hs] at h; cases h
    | some sys2 =>
      rw [hs] at h
      simp only [some_bind_eq] at h
      by_cases hde : w.m_DestructibleEntities.isEmpty
      · rw [if_pos hde] at h
        obtain rfl := (Option.some.inj h).symm
        rfl
      · rw [if_neg hde] at h
        cases hct : changeStateAll
            ((moveDestructibleEntities w.m_Entities
                (dedupAdjacent (sortUids w.m_DestructibleEntities))).2
              ++ (moveDestructibleEntities w.m_InitializingEntities
                (dedupAdjacent (sortUids w.m_DestructibleEntities))).2
              ++ (moveDestructibleEntities w.m_NewEntities
                (dedupAdjacent (sortUids w.m_DestructibleEntities))).2)
            EntityState.teardown with
        | none => rw [hct, Option.map_none'] at h; cases h
        | some td =>
          rw [hct, Option.map_some'] at h
          obtain rfl := (Option.some.inj h).symm
          rfl
  · rw [if_neg hle] at h
    cases h

theorem postUpdate_nextUID (w w2 : World α)
    (h : w.postUpdate = some w2) : w2.m_NextUID = w.m_NextUID := by
  unfold World.postUpdate at h
  cases h1 : w.postUpdateSystems.processInitializingEntities with
  | none => rw [h1] at h; cases h
  | some wa =>
    rw [h1, some_bind_eq] at h
    cases h2 : wa.processNewEntities with
    | none => rw [h2] at h; cases h
    | some wb =>
      rw [h2, some_bind_eq] at h
      have e1 := processInitializingEntities_nextUID _ _ h1
      have e2 := processNewEntities_nextUID _ _ h2
      have e3 := processEntityDestruction_nextUID _ _ h
      rw [e3, e2, e1]
      rfl

/-- The public `World` operations exercised by a client over the world's
lifetime. -/
inductive Op where
  | create
  | destroyLater (uid : Nat)
  | preUpdate
  | update
  | postUpdate

/-- Runs a sequence of operations, collecting the uids handed out by
`createEntity` in call order.  `Option.none` if a lifecycle phase hit a fatal
assertion. -/
def World.run (w : World α) : List Op → Option (World α × List Nat)
  | [] => some (w, [])
  | Op.create :: rest =>
    (World.run (w.createEntity).1 rest).map (fun r => (r.1, (w.createEntity).2 :: r.2))
  | Op.destroyLater u :: rest => World.run (w.destroyEntityLater u) rest
  | Op.preUpdate :: rest => World.run w.preUpdate rest
  | Op.update :: rest => World.run w.update rest
  | Op.postUpdate :: rest => (w.postUpdate).bind (fun w2 => World.run w2 rest)

theorem range'_pairwise_lt (n : Nat) : ∀ s, (List.range' s n).Pairwise (· < ·) := by
  induction n with
  | zero => intro s; simp
  | succ m ih =>
    intro s
    refine List.pairwise_cons.mpr ⟨?_, ih (s + 1)⟩
    intro b hb
    have := (List.mem_range'_1.mp hb).1
    omega

theorem run_uids (ops : List Op) : ∀ (w : World α) (res : World α × List Nat),
    World.run w ops = some res →
    w.m_NextUID + res.2.length < sizeTMod →
    res.2 = List.range' w.m_NextUID res.2.length
      ∧ res.1.m_NextUID = w.m_NextUID + res.2.length := by
  induction ops with
  | nil =>
    intro w res h _
    obtain rfl := (Option.some.inj h).symm
    exact ⟨rfl, rfl⟩
  | cons op rest ih =>
    cases op with
    | create =>
      intro w res h hb
      cases hr : World.run (w.createEntity).1 rest with
      | none => rw [World.run, hr, Option.map_none'] at h; cases h
      | some r =>
        rw [World.run, hr, Option.map_some'] at h
        obtain rfl := (Option.some.inj h).symm
        have hb' : w.m_NextUID + (r.2.length + 1) < sizeTMod := by
          simpa using hb
        have hnu : (w.createEntity).1.m_NextUID = w.m_NextUID + 1 := by
          show incSizeT w.m_NextUID = w.m_NextUID + 1
          unfold incSizeT
          rw [if_neg (by unfold sizeTMod at hb' ⊢; omega)]
        obtain ⟨ih1, ih2⟩ := ih (w.createEntity).1 r hr (by rw [hnu]; omega)
        constructor
        · show w.m_NextUID :: r.2 = w.m_NextUID :: List.range' (w.m_NextUID + 1) r.2.length
          exact congrArg _ (ih1.trans (by rw [hnu]))
        · show r.1.m_NextUID = w.m_NextUID + (r.2.length + 1)
          rw [ih2, hnu]
          omega
    | destroyLater u =>
      intro w res h hb
      exact ih (w.destroyEntityLater u) res h hb
    | preUpdate =>
      intro w res h hb
      exact ih w.preUpdate res h hb
    | update =>
      intro w res h hb
      exact ih w.update res h hb
    | postUpdate =>
      intro w res h hb
      rw [World.run] at h
      cases hp : w.postUpdate with
      | none => rw [hp] at h; cases h
      | some w2 =>
        rw [hp, some_bind_eq] at h
        have hnu := postUpdate_nextUID w w2 hp
        obtain ⟨ih1, ih2⟩ := ih w2 res h (by rw [hnu]; exact hb)
        rw [hnu] at ih1 ih2
        exact ⟨ih1, ih2⟩

/-- C6.  Over any operation sequence run against a fresh world (as long as
the uid counter stays below the `size_t` wrap), the uids handed out by
`createEntity` are exactly 1, 2, 3, …: they start at 1, strictly increase in
creation order, and are never reused — even after the entities carrying them
were destroyed. -/
theorem uid_monotonic_never_reused (hooks : SystemHooks α) (ops : List Op) (uids : List Nat)
    (h : (World.run (World.init hooks) ops).map Prod.snd = some uids)
    (hb : 1 + uids.length < sizeTMod) :
    uids = List.range' 1 uids.length
    ∧ uids.Pairwise (· < ·)
    ∧ uids.Nodup := by
  cases hr : World.run (World.init hooks) ops with
  | none => rw [hr, Option.map_none'] at h; cases h
  | some res =>
    rw [hr, Option.map_some'] at h
    obtain rfl := (Option.some.inj h).symm
    obtain ⟨h1, _⟩ := run_uids ops (World.init hooks) res hr hb
    refine ⟨h1, ?_, ?_⟩
    · rw [h1]
      exact range'_pairwise_lt _ _
    · rw [h1]
      exact (range'_pairwise_lt _ _).imp Nat.ne_of_lt

/-- C6 witness: create, destroy, two frames, create again — the dead uid 1 is
not recycled, the second entity gets uid 2. -/
theorem uid_monotonic_never_reused_witness :
    ((World.run (World.init idleHooks)
        [Op.create, Op.destroyLater 1, Op.postUpdate, Op.postUpdate, Op.create]).map Prod.snd
      = some [1, 2])
    ∧ 1 + [1, 2].length < sizeTMod
    ∧ ([1, 2] = List.range' 1 [1, 2].length
      ∧ List.Pairwise (· < ·) [1, 2]
      ∧ [1, 2].Nodup) :=
  ⟨by decide, by decide,
    uid_monotonic_never_reused idleHooks
      [Op.create, Op.destroyLater 1, Op.postUpdate, Op.postUpdate, Op.create]
      [1, 2] (by decide) (by decide)⟩
